import Mathlib

/-!
# Network-slicing scenarios: a shallow embedding

Definitions follow `src/sim-network-slicing.cc` and `src/bwp-network-slicing.cc`.
Machine integers are natural numbers with an explicit modulus where a counter can wrap;
container accesses that the engine asserts on are `Option`-valued.
-/

set_option autoImplicit false

namespace NetworkSlicing

/-! ## Machine integer ranges -/

/-- Number of values of a `uint16_t`. -/
def UINT16_RANGE : Nat := 65536

/-- Number of non-negative values of an `int` (32 bit). -/
def INT_RANGE : Nat := 2147483648

/-! ## sim-network-slicing.cc: grouping the devices (lines 355-370) -/

/-- One counted loop of the grouping phase,
`for (j = j0; j < bound; ++j) { group.Add(ueNodes.Get(j)); }`.
The counter `j` lives in a type with `modulus` values, so `++j` wraps; `fuel` bounds the number
of times the loop condition is tested; `ueNodes.Get(j)` fails outside the container. -/
def groupLoop {α : Type} (modulus : Nat) (ueNodes : List α) (bound : Nat) :
    Nat → Nat → List α → Option (List α)
  | 0, _, _ => none
  | fuel + 1, j, group =>
    if j < bound then
      match ueNodes.get? j with
      | some ue => groupLoop modulus ueNodes bound fuel ((j + 1) % modulus) (group ++ [ue])
      | none => none
    else some group

/-- The three grouping loops of `main`. The first counter is `auto j = 0` (an `int`), the second
is `auto j = ueNumPerSlice[0]` (a `uint16_t`, compared with the `int` sum
`ueNumPerSlice[0] + ueNumPerSlice[1]`), the third is
`auto j = ueNumPerSlice[0] + ueNumPerSlice[1]` (an `int`). Result:
`(ueVrNodes, ueCgNodes, ueAdNodes)`. -/
def groupUes {α : Type} (fuel : Nat) (ueNumPerSlice0 ueNumPerSlice1 ueNumPerSlice2 : Nat)
    (ueNodes : List α) : Option (List α × List α × List α) :=
  match groupLoop INT_RANGE ueNodes ueNumPerSlice0 fuel 0 [] with
  | none => none
  | some ueVrNodes =>
    match groupLoop UINT16_RANGE ueNodes (ueNumPerSlice0 + ueNumPerSlice1) fuel
        ueNumPerSlice0 [] with
    | none => none
    | some ueCgNodes =>
      match groupLoop INT_RANGE ueNodes (ueNumPerSlice0 + ueNumPerSlice1 + ueNumPerSlice2) fuel
          (ueNumPerSlice0 + ueNumPerSlice1) [] with
      | none => none
      | some ueAdNodes => some (ueVrNodes, ueCgNodes, ueAdNodes)

/-- The call `ueNodes.Create(n)`: `n` fresh, pairwise different node handles. -/
def NodeContainer.Create (n : Nat) : List Nat := List.range n

/-! ## Admission objects (both scenarios) -/

/-- The QoS class identifiers `EpsBearer::Qci` that the two scenarios name. -/
inductive Qci where
  | GBR_GAMING
  | GBR_V2X
  | NGBR_VOICE_VIDEO_GAMING
  | NGBR_VIDEO_TCP_DEFAULT
  | NGBR_V2X
  deriving DecidableEq, Repr

/-- Modelled from the spec: the enum `EpsBearer::Qci` is declared by the external engine, not in
this repository. Its resource type is read off the identifier: `GBR_` classes are
guaranteed-bitrate, `NGBR_` classes are non-guaranteed-bitrate. -/
def Qci.isGbr : Qci → Bool
  | .GBR_GAMING => true
  | .GBR_V2X => true
  | .NGBR_VOICE_VIDEO_GAMING => false
  | .NGBR_VIDEO_TCP_DEFAULT => false
  | .NGBR_V2X => false

/-- Modelled from the spec: the kinds of traffic a QoS class of the external engine is meant for,
read off the identifier (video, gaming, vehicle-to-everything). -/
inductive TrafficKind where
  | video
  | gaming
  | v2x
  deriving DecidableEq, Repr

/-- Modelled from the spec: the traffic kinds named by each identifier of `EpsBearer::Qci`. -/
def Qci.serves : Qci → List TrafficKind
  | .GBR_GAMING => [.gaming]
  | .GBR_V2X => [.v2x]
  | .NGBR_VOICE_VIDEO_GAMING => [.video, .gaming]
  | .NGBR_VIDEO_TCP_DEFAULT => [.video]
  | .NGBR_V2X => [.v2x]

/-- An `EpsBearer` as the scenarios construct it: only the QoS class is given. -/
structure EpsBearer where
  qci : Qci
  deriving DecidableEq, Repr

/-- The fields of `EpcTft::PacketFilter` that the scenarios assign. -/
structure PacketFilter where
  localPortStart : Nat
  localPortEnd : Nat
  deriving DecidableEq, Repr

/-- An `EpcTft`: the packet filters added to it, in order. -/
abbrev EpcTft := List PacketFilter

/-- One call `nrHelper->ActivateDedicatedEpsBearer(ueDevice, bearer, tft)`. A net device is
named by a natural number: the device installed on node `k` is identified with `k`. -/
structure AdmissionRequest where
  ueDevice : Nat
  bearer : EpsBearer
  tft : EpcTft
  deriving DecidableEq, Repr

/-- The local ports a request filters on (the `localPortStart` of each of its filters). -/
def AdmissionRequest.ports (r : AdmissionRequest) : List Nat :=
  r.tft.map PacketFilter.localPortStart

/-- The socket factory named by `transportProtocol`. -/
inductive TransportProtocol where
  | UdpSocketFactory
  | TcpSocketFactory
  deriving DecidableEq, Repr

/-- The (filter port, protocol) pair of a request of a run over `transportProtocol`. -/
def AdmissionRequest.portProtocol (transportProtocol : TransportProtocol)
    (r : AdmissionRequest) : List Nat × TransportProtocol :=
  (r.ports, transportProtocol)

/-- The call `nrHelper->InstallUeDevice(nodes, allBwps)`: one device per node, in order. -/
def InstallUeDevice (nodes : List Nat) : List Nat := nodes

/-- A counted loop `for (uint32_t u = lo; u < lo + count; ++u) body` over a fallible body;
`forLoop body count lo s` runs it from state `s`. The bounds of the scenarios stay below
`3 * 65535`, so the 32-bit counter never wraps. -/
def forLoop {σ : Type} (body : Nat → σ → Option σ) : Nat → Nat → σ → Option σ
  | 0, _, s => some s
  | count + 1, u, s =>
    match body u s with
    | none => none
    | some s' => forLoop body count (u + 1) s'

/-! ## sim-network-slicing.cc: ConfigureXrApp and the configuration phase -/

/-- The admission part of `ConfigureXrApp` (lines 70-85). `numFlows` is
`currentUeClientApps.GetN()`, the number of sub-flows of the traffic mix `config` (a table of the
external engine); `activated` is the sequence of requests issued so far. `ueNetDev.Get(i)` and
the `NS_ASSERT` on `tfts` are the failure points. -/
def ConfigureXrApp (i : Nat) (numFlows : Nat) (ueNetDev : List Nat) (bearer : EpsBearer)
    (tft : EpcTft) (isMx1 : Bool) (tfts : List EpcTft) (activated : List AdmissionRequest) :
    Option (List AdmissionRequest) :=
  match ueNetDev.get? i with
  | none => none
  | some ueDevice =>
    let activated := activated ++ [⟨ueDevice, bearer, tft⟩]
    if isMx1 then
      some (activated ++ [⟨ueDevice, bearer, tft⟩])
    else if numFlows ≤ tfts.length then
      some (activated ++ (List.range numFlows).filterMap
        (fun j => (tfts.get? j).map (fun t => ⟨ueDevice, bearer, t⟩)))
    else none

/-- Port `dlVrPort`. -/
def dlVrPort : Nat := 1001

/-- Port `dlCgPort`. -/
def dlCgPort : Nat := 1101

/-- Port `dlAdPort`. -/
def dlAdPort : Nat := 1201

/-- Bearer `vrBearer(EpsBearer::NGBR_VIDEO_TCP_DEFAULT)`. -/
def vrBearer : EpsBearer := ⟨.NGBR_VIDEO_TCP_DEFAULT⟩

/-- Bearer `cgBearer(EpsBearer::NGBR_VOICE_VIDEO_GAMING)`. -/
def cgBearer : EpsBearer := ⟨.NGBR_VOICE_VIDEO_GAMING⟩

/-- Bearer `adBearer(EpsBearer::NGBR_V2X)`. -/
def adBearer : EpsBearer := ⟨.NGBR_V2X⟩

/-- Filter set `vrTft`: the single filter `dlpfVr`. -/
def vrTft : EpcTft := [⟨dlVrPort, dlVrPort⟩]

/-- Filter set `cgTft`: the single filter `dlpfCg`. -/
def cgTft : EpcTft := [⟨dlCgPort, dlCgPort⟩]

/-- Filter set `adTft`: the single filter `dlpfAd`. -/
def adTft : EpcTft := [⟨dlAdPort, dlAdPort⟩]

/-- The vector `arTfts`, left empty. -/
def arTfts : List EpcTft := []

/-- The BWP-manager configuration of sim-network-slicing.cc (lines 343-352): the segment index
set for a QoS class by `SetGnbBwpManagerAlgorithmAttribute`, `none` for a class left alone. -/
def simBwpManager : Qci → Option Nat
  | .NGBR_VIDEO_TCP_DEFAULT => some 0
  | .NGBR_VOICE_VIDEO_GAMING => some 1
  | .NGBR_V2X => some 2
  | _ => none

/-- The three `ConfigureXrApp` loops of `main` (lines 490-559); `ueNodesN` is `ueNodes.GetN()`. -/
def simAdmission (numFlows q0 q1 ueNodesN : Nat) (ueVrNetDev ueCgNetDev ueAdNetDev :
    List Nat) : Option (List AdmissionRequest) :=
  match forLoop (fun u s => ConfigureXrApp u numFlows ueVrNetDev vrBearer vrTft true arTfts s)
      q0 0 [] with
  | none => none
  | some s0 =>
    match forLoop (fun u s =>
        ConfigureXrApp (u - q0) numFlows ueCgNetDev cgBearer cgTft true arTfts s)
        (q0 + q1 - q0) q0 s0 with
    | none => none
    | some s1 =>
      forLoop (fun u s =>
        ConfigureXrApp (u - q0 - q1) numFlows ueAdNetDev adBearer adTft true arTfts s)
        (ueNodesN - (q0 + q1)) (q0 + q1) s1

/-- The configuration phase of sim-network-slicing.cc: create the devices, group them, issue the
admission requests. `numFlows` is the number of sub-flows of the mix `VR_DL1`. -/
def simMain (fuel numFlows q0 q1 q2 : Nat) : Option (List AdmissionRequest) :=
  let ueNodes := NodeContainer.Create (q0 + q1 + q2)
  match groupUes fuel q0 q1 q2 ueNodes with
  | none => none
  | some (ueVrNodes, ueCgNodes, ueAdNodes) =>
    simAdmission numFlows q0 q1 ueNodes.length (InstallUeDevice ueVrNodes)
      (InstallUeDevice ueCgNodes) (InstallUeDevice ueAdNodes)

/-! ## bwp-network-slicing.cc: the configuration phase (lines 378-459) -/

/-- The state the three slice loops thread: the counter `dlPort` and the requests issued. -/
structure BwpState where
  dlPort : Nat
  activated : List AdmissionRequest
  deriving DecidableEq, Repr

/-- The body shared by the three slice loops: build the point filter on `dlPort`, `++dlPort`
(a `uint16_t`), activate the bearer of class `qci` on `ueNetDev.Get(u)`. -/
def bwpSliceBody (ueNetDev : List Nat) (qci : Qci) (u : Nat) (s : BwpState) :
    Option BwpState :=
  match ueNetDev.get? u with
  | none => none
  | some ueDevice =>
    let dlpf : PacketFilter := ⟨s.dlPort, s.dlPort⟩
    some ⟨(s.dlPort + 1) % UINT16_RANGE, s.activated ++ [⟨ueDevice, ⟨qci⟩, [dlpf]⟩]⟩

/-- The configuration phase of bwp-network-slicing.cc: `dlPort` starts at 1234 and is shared by
the three loops. -/
def bwpMain (q0 q1 q2 : Nat) : Option (List AdmissionRequest) :=
  let ueNodes := NodeContainer.Create (q0 + q1 + q2)
  let ueNetDev := InstallUeDevice ueNodes
  match forLoop (bwpSliceBody ueNetDev .GBR_GAMING) q0 0 ⟨1234, []⟩ with
  | none => none
  | some s0 =>
    match forLoop (bwpSliceBody ueNetDev .NGBR_VOICE_VIDEO_GAMING) (q0 + q1 - q0) q0 s0 with
    | none => none
    | some s1 =>
      match forLoop (bwpSliceBody ueNetDev .NGBR_VIDEO_TCP_DEFAULT)
          (ueNodes.length - (q0 + q1)) (q0 + q1) s1 with
      | none => none
      | some s2 => some s2.activated

/-- The BWP-manager configuration of bwp-network-slicing.cc (lines 297-306): the segment index
set for a QoS class by `SetGnbBwpManagerAlgorithmAttribute`, `none` for a class left alone. -/
def bwpBwpManager : Qci → Option Nat
  | .GBR_GAMING => some 0
  | .NGBR_VOICE_VIDEO_GAMING => some 1
  | .GBR_V2X => some 2
  | _ => none

/-- The state the three slice loops of bwp-network-slicing.cc build, in full: the counter
`dlPort`, the packet sinks (node, listening port), the clients (slice container, device whose
address is the destination, destination port) and the admission requests. -/
structure BwpApps where
  dlPort : Nat
  serverApps : List (Nat × Nat)
  clientApps : List (Nat × Nat × Nat)
  activated : List AdmissionRequest
  deriving DecidableEq, Repr

/-- The body of the loop of slice `slice` in full: sink on `dlPort` installed on
`ueNodes.Get(u)`, client addressed to `ueIpIface.GetAddress(u)` and `dlPort`, point filter on
`dlPort`, `++dlPort` (a `uint16_t`), bearer of class `qci` activated on `ueNetDev.Get(u)`. -/
def bwpLoopBody (ueNodes ueNetDev : List Nat) (slice : Nat) (qci : Qci) (u : Nat)
    (s : BwpApps) : Option BwpApps :=
  match ueNodes.get? u, ueNetDev.get? u with
  | some node, some ueDevice =>
    let dlpf : PacketFilter := ⟨s.dlPort, s.dlPort⟩
    some { dlPort := (s.dlPort + 1) % UINT16_RANGE
           serverApps := s.serverApps ++ [(node, s.dlPort)]
           clientApps := s.clientApps ++ [(slice, ueDevice, s.dlPort)]
           activated := s.activated ++ [⟨ueDevice, ⟨qci⟩, [dlpf]⟩] }
  | _, _ => none

/-- The three slice loops of bwp-network-slicing.cc in full, from `dlPort = 1234`. -/
def bwpConfigure (q0 q1 q2 : Nat) : Option BwpApps :=
  let ueNodes := NodeContainer.Create (q0 + q1 + q2)
  let ueNetDev := InstallUeDevice ueNodes
  match forLoop (bwpLoopBody ueNodes ueNetDev 0 .GBR_GAMING) q0 0 ⟨1234, [], [], []⟩ with
  | none => none
  | some s0 =>
    match forLoop (bwpLoopBody ueNodes ueNetDev 1 .NGBR_VOICE_VIDEO_GAMING) (q0 + q1 - q0) q0
        s0 with
    | none => none
    | some s1 =>
      forLoop (bwpLoopBody ueNodes ueNetDev 2 .NGBR_VIDEO_TCP_DEFAULT)
        (ueNodes.length - (q0 + q1)) (q0 + q1) s1

/-! ## Spectrum: band, component carriers, bandwidth parts (both scenarios) -/

/-- The fields of `BandwidthPartInfo` that the scenarios assign, over a number type `K`. -/
structure BandwidthPartInfo (K : Type) where
  m_bwpId : Nat
  m_centralFrequency : K
  m_channelBandwidth : K
  m_lowerFrequency : K
  m_higherFrequency : K

/-- The fields of `ComponentCarrierInfo` that the scenarios assign, and its bandwidth parts. -/
structure ComponentCarrierInfo (K : Type) where
  m_ccId : Nat
  m_centralFrequency : K
  m_channelBandwidth : K
  m_lowerFrequency : K
  m_higherFrequency : K
  m_bwp : List (BandwidthPartInfo K)

/-- The fields of `OperationBandInfo` that the scenarios assign, and its component carriers. -/
structure OperationBandInfo (K : Type) where
  m_centralFrequency : K
  m_channelBandwidth : K
  m_lowerFrequency : K
  m_higherFrequency : K
  m_cc : List (ComponentCarrierInfo K)

/-- The body of the carrier loop for index `n`: component carrier `cc0` with its edges, and the
bandwidth part `bwp0` copied from it and added to it. -/
def makeCc {K : Type} [Field K] (n : Nat) (centralFrequency channelBandwidth : K) :
    ComponentCarrierInfo K :=
  let m_lowerFrequency := centralFrequency - channelBandwidth / 2
  let m_higherFrequency := centralFrequency + channelBandwidth / 2
  { m_ccId := n
    m_centralFrequency := centralFrequency
    m_channelBandwidth := channelBandwidth
    m_lowerFrequency := m_lowerFrequency
    m_higherFrequency := m_higherFrequency
    m_bwp := [{ m_bwpId := n
                m_centralFrequency := centralFrequency
                m_channelBandwidth := channelBandwidth
                m_lowerFrequency := m_lowerFrequency
                m_higherFrequency := m_higherFrequency }] }

/-- The band of `main`: its own edges, then the carriers `0 .. numCcs-1` added in order.
`numCcs` is the constant 3 in both scenarios and the arrays have that many entries; here it is a
parameter. -/
def makeBand {K : Type} [Field K] (numCcs : Nat) (centralFrequencyBand bandwidthBand : K)
    (centralFrequencyCc bandwidthCc : Fin numCcs → K) : OperationBandInfo K :=
  { m_centralFrequency := centralFrequencyBand
    m_channelBandwidth := bandwidthBand
    m_lowerFrequency := centralFrequencyBand - bandwidthBand / 2
    m_higherFrequency := centralFrequencyBand + bandwidthBand / 2
    m_cc := List.ofFn (fun n : Fin numCcs => makeCc n.val (centralFrequencyCc n) (bandwidthCc n)) }

/-- The lookup `band.GetBwpAt(ccId, bwpId)`. -/
def OperationBandInfo.GetBwpAt {K : Type} (band : OperationBandInfo K) (ccId bwpId : Nat) :
    Option (BandwidthPartInfo K) :=
  match band.m_cc.get? ccId with
  | none => none
  | some cc => cc.m_bwp.get? bwpId

/-- The `TxPower` attribute set on the gNB phy of bandwidth part `n` (over the reals):
`10 * log10((band.GetBwpAt(n, 0)->m_channelBandwidth / bandwidthBand) * x)` with
`x = pow(10, totalTxPower / 10)`. -/
noncomputable def gnbTxPower (totalTxPower bandwidthBand : ℝ) (band : OperationBandInfo ℝ)
    (n : Nat) : Option ℝ :=
  let x : ℝ := (10 : ℝ) ^ (totalTxPower / 10)
  match band.GetBwpAt n 0 with
  | none => none
  | some bwp => some (10 * Real.logb 10 ((bwp.m_channelBandwidth / bandwidthBand) * x))

/-! ## sim-network-slicing.cc: default spectrum parameters (lines 114-125) -/

/-- Default `bandwidthBand = 3e9`. -/
def simBandwidthBand (K : Type) [Field K] : K := 3000000000

/-- Default `centralFrequencyBand = 28e9`. -/
def simCentralFrequencyBand (K : Type) [Field K] : K := 28000000000

/-- Default `bandwidthCc [] = {2e9, 0.5e9, 0.5e9}`. -/
def simBandwidthCc (K : Type) [Field K] : Fin 3 → K :=
  ![2000000000, 500000000, 500000000]

/-- Default `centralFrequencyCc []`, derived from the band centre and the carrier bandwidths. -/
def simCentralFrequencyCc (K : Type) [Field K] : Fin 3 → K :=
  ![simCentralFrequencyBand K - simBandwidthCc K 1 / 2 - simBandwidthCc K 2 / 2,
    simCentralFrequencyBand K,
    simCentralFrequencyBand K + simBandwidthCc K 0 / 2 + simBandwidthCc K 1 / 2]

/-- Default `totalTxPower = 41`. -/
def simTotalTxPower : ℝ := 41

/-- The band that `main` builds from the defaults. -/
def simDefaultBand (K : Type) [Field K] : OperationBandInfo K :=
  makeBand 3 (simCentralFrequencyBand K) (simBandwidthBand K) (simCentralFrequencyCc K)
    (simBandwidthCc K)

/-! ## Flow statistics report (sim-network-slicing.cc lines 605-692,
bwp-network-slicing.cc lines 497-583)

Times are seconds and all values are exact rationals. A `double` result that is not finite
(a division by zero) is `none`. -/

/-- The fields of `Ipv4FlowClassifier::FiveTuple`. -/
structure FiveTuple where
  sourceAddress : Nat
  destinationAddress : Nat
  protocol : Nat
  sourcePort : Nat
  destinationPort : Nat
  deriving DecidableEq, Repr

/-- The fields of `FlowMonitor::FlowStats` that the report reads; the time fields hold the value
of `GetSeconds()`. -/
structure FlowStats where
  txPackets : Nat
  txBytes : Nat
  rxPackets : Nat
  rxBytes : Nat
  delaySum : ℚ
  jitterSum : ℚ
  timeFirstTxPacket : ℚ
  timeLastRxPacket : ℚ
  deriving DecidableEq, Repr

/-- One entry of the table `stats`: the flow id, the five-tuple that the classifier finds for
it, and its counters. -/
structure FlowEntry where
  flowId : Nat
  t : FiveTuple
  second : FlowStats
  deriving DecidableEq, Repr

/-- A division of `double` values: `none` when the divisor is zero (the result is not finite). -/
def fdiv (x y : ℚ) : Option ℚ :=
  if y = 0 then none else some (x / y)

/-- The compound assignment `acc += x` on `double` values, either of which may be not finite. -/
def optAdd (acc x : Option ℚ) : Option ℚ :=
  match acc, x with
  | some a, some b => some (a + b)
  | _, _ => none

/-- The text of `protoStream`: the protocol number printed as a `uint16_t`, replaced by `TCP` for
6 and then by `UDP` for 17. -/
def protoLabel (protocol : Nat) : String :=
  let protoStream := toString protocol
  let protoStream := if protocol = 6 then "TCP" else protoStream
  if protocol = 17 then "UDP" else protoStream

/-- The lines written to `outFile` for one flow: the header and the eight values, in order. -/
structure FlowBlock where
  flowId : Nat
  t : FiveTuple
  proto : String
  txPackets : Nat
  txBytes : Nat
  txOffered : Option ℚ
  rxBytes : Nat
  throughput : Option ℚ
  meanDelay : Option ℚ
  meanJitter : Option ℚ
  rxPackets : Nat
  deriving DecidableEq, Repr

/-- The state of the reporting loop: the two running sums and the blocks written so far. -/
structure ReportAcc where
  averageFlowThroughput : Option ℚ
  averageFlowDelay : Option ℚ
  outFile : List FlowBlock
  deriving DecidableEq, Repr

/-- The finished report: the per-flow blocks and the two values of the summary block. -/
structure Report where
  blocks : List FlowBlock
  meanFlowThroughput : Option ℚ
  meanFlowDelay : Option ℚ
  deriving DecidableEq, Repr

/-- The body of the reporting loop of sim-network-slicing.cc for one flow; `appDuration` is in
milliseconds and `txDuration = MilliSeconds(appDuration).GetSeconds()`. -/
def simReportFlow (appDuration : Nat) (acc : ReportAcc) (i : FlowEntry) : ReportAcc :=
  let txDuration : ℚ := (appDuration : ℚ) / 1000
  let txOffered := (fdiv (i.second.txBytes * 8) txDuration).map (fun v => v / 1000 / 1000)
  if 0 < i.second.rxPackets then
    let rxDuration : ℚ := i.second.timeLastRxPacket - i.second.timeFirstTxPacket
    let throughput := (fdiv (i.second.rxBytes * 8) rxDuration).map (fun v => v / 1000 / 1000)
    let delay : ℚ := 1000 * i.second.delaySum / i.second.rxPackets
    let jitter : ℚ := 1000 * i.second.jitterSum / i.second.rxPackets
    { averageFlowThroughput := optAdd acc.averageFlowThroughput throughput
      averageFlowDelay := optAdd acc.averageFlowDelay (some delay)
      outFile := acc.outFile ++ [{
        flowId := i.flowId, t := i.t, proto := protoLabel i.t.protocol
        txPackets := i.second.txPackets, txBytes := i.second.txBytes, txOffered := txOffered
        rxBytes := i.second.rxBytes, throughput := throughput, meanDelay := some delay
        meanJitter := some jitter, rxPackets := i.second.rxPackets }] }
  else
    { acc with
      outFile := acc.outFile ++ [{
        flowId := i.flowId, t := i.t, proto := protoLabel i.t.protocol
        txPackets := i.second.txPackets, txBytes := i.second.txBytes, txOffered := txOffered
        rxBytes := i.second.rxBytes, throughput := some 0, meanDelay := some 0
        meanJitter := some 0, rxPackets := i.second.rxPackets }] }

/-- The reporting phase of sim-network-slicing.cc, from `outFile.open` to the `return`:
the exit status and the content of the file (`none` when nothing is written). `isOpen` is the
result of `outFile.is_open()`. -/
def simReportPhase (isOpen : Bool) (appDuration : Nat) (stats : List FlowEntry) :
    Nat × Option Report :=
  if !isOpen then (1, none)
  else
    let acc := stats.foldl (simReportFlow appDuration) ⟨some 0, some 0, []⟩
    (0, some { blocks := acc.outFile
               meanFlowThroughput := acc.averageFlowThroughput.bind (fun a => fdiv a stats.length)
               meanFlowDelay := acc.averageFlowDelay.bind (fun a => fdiv a stats.length) })

/-- The body of the reporting loop of bwp-network-slicing.cc for one flow; the offered load is
divided by `simTime - udpAppStartTime`. -/
def bwpReportFlow (simTime udpAppStartTime : ℚ) (acc : ReportAcc) (i : FlowEntry) : ReportAcc :=
  let txOffered :=
    (fdiv (i.second.txBytes * 8) (simTime - udpAppStartTime)).map (fun v => v / 1000 / 1000)
  if 0 < i.second.rxPackets then
    let rxDuration : ℚ := i.second.timeLastRxPacket - i.second.timeFirstTxPacket
    let throughput := (fdiv (i.second.rxBytes * 8) rxDuration).map (fun v => v / 1000 / 1000)
    let delay : ℚ := 1000 * i.second.delaySum / i.second.rxPackets
    let jitter : ℚ := 1000 * i.second.jitterSum / i.second.rxPackets
    { averageFlowThroughput := optAdd acc.averageFlowThroughput throughput
      averageFlowDelay := optAdd acc.averageFlowDelay (some delay)
      outFile := acc.outFile ++ [{
        flowId := i.flowId, t := i.t, proto := protoLabel i.t.protocol
        txPackets := i.second.txPackets, txBytes := i.second.txBytes, txOffered := txOffered
        rxBytes := i.second.rxBytes, throughput := throughput, meanDelay := some delay
        meanJitter := some jitter, rxPackets := i.second.rxPackets }] }
  else
    { acc with
      outFile := acc.outFile ++ [{
        flowId := i.flowId, t := i.t, proto := protoLabel i.t.protocol
        txPackets := i.second.txPackets, txBytes := i.second.txBytes, txOffered := txOffered
        rxBytes := i.second.rxBytes, throughput := some 0, meanDelay := some 0
        meanJitter := some 0, rxPackets := i.second.rxPackets }] }

/-- The reporting phase of bwp-network-slicing.cc, from `outFile.open` to the `return`. -/
def bwpReportPhase (isOpen : Bool) (simTime udpAppStartTime : ℚ) (stats : List FlowEntry) :
    Nat × Option Report :=
  if !isOpen then (1, none)
  else
    let acc := stats.foldl (bwpReportFlow simTime udpAppStartTime) ⟨some 0, some 0, []⟩
    (0, some { blocks := acc.outFile
               meanFlowThroughput := acc.averageFlowThroughput.bind (fun a => fdiv a stats.length)
               meanFlowDelay := acc.averageFlowDelay.bind (fun a => fdiv a stats.length) })

/-! ## log-test-network-slicing.cc: RandomApp and the event loop (lines 27-160)

Virtual time is in seconds, as exact rationals. The conversion `Seconds` of the quotient computed
in `ScheduleTx` to a `Time` is a parameter of the model; the exact conversion is the identity. -/

/-- Number of values of a `uint32_t`. -/
def UINT32_RANGE : Nat := 4294967296

/-- Modelled from the spec: the transport endpoint of the engine, reduced to the last of the
calls `Bind`, `Connect`, `Close` made on it (`created` before any of them). -/
inductive SocketState where
  | created
  | bound
  | connected
  | closed
  deriving DecidableEq, Repr

/-- The data members of `RandomApp` (the peer address left out). `m_socket` is `none` for the
null pointer; `m_sendEvent` is `none` for the default `EventId`, else the uid of the event;
`m_dataRate` is the bit rate. -/
structure RandomApp where
  m_socket : Option SocketState
  m_packetSize : Nat
  m_nPackets : Nat
  m_dataRate : Nat
  m_sendEvent : Option Nat
  m_running : Bool
  m_packetsSent : Nat
  deriving DecidableEq, Repr

/-- Modelled from the spec: an entry of the engine's event list, here always a call of
`RandomApp::SendPacket` on the one generator: its virtual time, its uid and whether it has been
cancelled. -/
structure SendEvent where
  ts : ℚ
  uid : Nat
  cancelled : Bool
  deriving DecidableEq, Repr

/-- The generator together with the engine state it acts on: the virtual clock `now`, the event
list in firing order, the next uid, and the times of the calls `m_socket->Send`, oldest
first. -/
structure Simulation where
  app : RandomApp
  now : ℚ
  events : List SendEvent
  uid : Nat
  sent : List ℚ
  deriving DecidableEq, Repr

/-- Modelled from the spec: insertion into the event list, ordered by time and, within one
time, by uid (events of one virtual time fire in the order they were scheduled). -/
def insertEvent (e : SendEvent) : List SendEvent → List SendEvent
  | [] => [e]
  | x :: rest =>
    if e.ts < x.ts ∨ (e.ts = x.ts ∧ e.uid < x.uid) then e :: x :: rest
    else x :: insertEvent e rest

/-- Modelled from the spec: `Simulator::Schedule(delay, &RandomApp::SendPacket, this)`; returns
the new state and the `EventId`. -/
def Simulator.Schedule (w : Simulation) (delay : ℚ) : Simulation × Option Nat :=
  ({ w with events := insertEvent ⟨w.now + delay, w.uid, false⟩ w.events, uid := w.uid + 1 },
    some w.uid)

/-- Modelled from the spec: `EventId::IsPending()`: the event is in the list and not
cancelled; the default `EventId` is never pending. -/
def EventId.IsPending (events : List SendEvent) : Option Nat → Bool
  | none => false
  | some u => events.any (fun e => e.uid = u && !e.cancelled)

/-- Modelled from the spec: `Simulator::Cancel(id)`: the event stays in the list, marked as
cancelled. -/
def Simulator.Cancel (events : List SendEvent) (id : Option Nat) : List SendEvent :=
  events.map (fun e => if some e.uid = id then { e with cancelled := true } else e)

/-- The constructor `RandomApp::RandomApp()`. -/
def RandomApp.construct : RandomApp :=
  { m_socket := none, m_packetSize := 0, m_nPackets := 0, m_dataRate := 0, m_sendEvent := none
    m_running := false, m_packetsSent := 0 }

/-- The method `RandomApp::Setup`. -/
def RandomApp.Setup (app : RandomApp) (socket : Option SocketState)
    (packetSize nPackets dataRate : Nat) : RandomApp :=
  { app with m_socket := socket, m_packetSize := packetSize, m_nPackets := nPackets
             m_dataRate := dataRate }

/-- The method `RandomApp::ScheduleTx`: when running, schedule `SendPacket` after
`Seconds(m_packetSize * 8 / static_cast<double>(m_dataRate.GetBitRate()))`, the product taken in
`uint32_t`; a zero bit rate leaves no finite interval (`none`). -/
def RandomApp.ScheduleTx (Seconds : ℚ → ℚ) (w : Simulation) : Option Simulation :=
  if w.app.m_running then
    if w.app.m_dataRate = 0 then none
    else
      let tNext : ℚ :=
        Seconds ((((w.app.m_packetSize * 8) % UINT32_RANGE : Nat) : ℚ) / (w.app.m_dataRate : ℚ))
      let scheduled := Simulator.Schedule w tNext
      some { scheduled.1 with app := { scheduled.1.app with m_sendEvent := scheduled.2 } }
  else some w

/-- The method `RandomApp::SendPacket`: hand one packet to the socket (a null socket fails),
`++m_packetsSent` in `uint32_t`, and call `ScheduleTx` while the count is below `m_nPackets`. -/
def RandomApp.SendPacket (Seconds : ℚ → ℚ) (w : Simulation) : Option Simulation :=
  match w.app.m_socket with
  | none => none
  | some _ =>
    let w1 : Simulation :=
      { w with sent := w.sent ++ [w.now]
               app := { w.app with m_packetsSent := (w.app.m_packetsSent + 1) % UINT32_RANGE } }
    if w1.app.m_packetsSent < w1.app.m_nPackets then RandomApp.ScheduleTx Seconds w1
    else some w1

/-- The method `RandomApp::StartApplication`. -/
def RandomApp.StartApplication (Seconds : ℚ → ℚ) (w : Simulation) : Option Simulation :=
  let w1 : Simulation := { w with app := { w.app with m_running := true, m_packetsSent := 0 } }
  match w1.app.m_socket with
  | none => none
  | some _ =>
    let w2 : Simulation := { w1 with app := { w1.app with m_socket := some .bound } }
    let w3 : Simulation := { w2 with app := { w2.app with m_socket := some .connected } }
    RandomApp.SendPacket Seconds w3

/-- The method `RandomApp::StopApplication`. -/
def RandomApp.StopApplication (w : Simulation) : Simulation :=
  let w1 : Simulation := { w with app := { w.app with m_running := false } }
  let w2 : Simulation :=
    if EventId.IsPending w1.events w1.app.m_sendEvent then
      { w1 with events := Simulator.Cancel w1.events w1.app.m_sendEvent }
    else w1
  match w2.app.m_socket with
  | none => w2
  | some _ => { w2 with app := { w2.app with m_socket := some .closed } }

/-- Modelled from the spec: the engine fires the next event of a non-empty list: it is removed,
the clock moves to its time, and `SendPacket` is invoked unless the event was cancelled. -/
def Simulator.ProcessOneEvent (Seconds : ℚ → ℚ) (w : Simulation) : Option Simulation :=
  match w.events with
  | [] => none
  | next :: rest =>
    let w1 : Simulation := { w with events := rest, now := next.ts }
    if next.cancelled then some w1 else RandomApp.SendPacket Seconds w1

/-- Modelled from the spec: the first `k` passes of the loop of `Simulator::Run`,
`while (!m_events->IsEmpty()) ProcessOneEvent();` a state with an empty list stays as it is. -/
def Simulator.iterate (Seconds : ℚ → ℚ) : Nat → Simulation → Option Simulation
  | 0, w => some w
  | k + 1, w =>
    match w.events with
    | [] => some w
    | _ :: _ =>
      match Simulator.ProcessOneEvent Seconds w with
      | none => none
      | some w' => Simulator.iterate Seconds k w'

/-- Modelled from the spec: `Simulator::Run` to the end, within `fuel` tests of the loop
condition: the state in which the event list is empty. -/
def Simulator.Run (Seconds : ℚ → ℚ) : Nat → Simulation → Option Simulation
  | 0, _ => none
  | fuel + 1, w =>
    match w.events with
    | [] => some w
    | _ :: _ =>
      match Simulator.ProcessOneEvent Seconds w with
      | none => none
      | some w' => Simulator.Run Seconds fuel w'

/-- The idle generator of `main`: constructed, then `Setup` with a fresh socket, in an engine
at virtual time `t0` with no event. -/
def idleSimulation (packetSize nPackets dataRate : Nat) (t0 : ℚ) : Simulation :=
  { app := RandomApp.construct.Setup (some .created) packetSize nPackets dataRate
    now := t0, events := [], uid := 0, sent := [] }

/-! ## Derived descriptions used to state the results -/

/-- The requests that `isMx1` calls of `ConfigureXrApp` leave for the devices `devs`, in order:
the unconditional activation and the one of the `isMx1` branch, both on the shared filter set. -/
def mx1Requests (bearer : EpsBearer) (tft : EpcTft) (devs : List Nat) :
    List AdmissionRequest :=
  devs.flatMap (fun d => [⟨d, bearer, tft⟩, ⟨d, bearer, tft⟩])

/-- The requests of a run of sim-network-slicing.cc with quotas `(q0, q1, q2)`: the devices are
`0 .. q0+q1+q2-1`, slice by slice. -/
def simRequests (q0 q1 q2 : Nat) : List AdmissionRequest :=
  mx1Requests vrBearer vrTft (List.range' 0 q0)
    ++ mx1Requests cgBearer cgTft (List.range' q0 q1)
    ++ mx1Requests adBearer adTft (List.range' (q0 + q1) q2)

/-- The slice (0 for VR, 1 for CG, 2 for AD) whose index range holds device `d` under the
quotas `q0`, `q1`. -/
def sliceOf (q0 q1 : Nat) (d : Nat) : Nat :=
  if d < q0 then 0 else if d < q0 + q1 then 1 else 2

/-- The port variable handed to `ConfigureXrApp` in the loop of slice `i`. -/
def simSlicePort : Nat → Nat
  | 0 => dlVrPort
  | 1 => dlCgPort
  | _ => dlAdPort

/-- The bearer handed to `ConfigureXrApp` in the loop of slice `i`. -/
def simSliceBearer : Nat → EpsBearer
  | 0 => vrBearer
  | 1 => cgBearer
  | _ => adBearer

/-- The request that the loop body of bwp-network-slicing.cc issues for device `u` when the
counter `dlPort` started at 1234 and has been incremented once per earlier device. -/
def bwpRequest (qci : Qci) (u : Nat) : AdmissionRequest :=
  ⟨u, ⟨qci⟩, [⟨(1234 + u) % UINT16_RANGE, (1234 + u) % UINT16_RANGE⟩]⟩

/-- The requests of a run of bwp-network-slicing.cc with quotas `(q0, q1, q2)`, loop by loop. -/
def bwpRequests (q0 q1 q2 : Nat) : List AdmissionRequest :=
  (List.range' 0 q0).map (bwpRequest .GBR_GAMING)
    ++ (List.range' q0 q1).map (bwpRequest .NGBR_VOICE_VIDEO_GAMING)
    ++ (List.range' (q0 + q1) q2).map (bwpRequest .NGBR_VIDEO_TCP_DEFAULT)

/-- `SimRun numFlows q0 q1 q2 reqs`: the configuration phase of sim-network-slicing.cc runs to
its end and `reqs` is the sequence of admission requests it has issued. -/
def SimRun (numFlows q0 q1 q2 : Nat) (reqs : List AdmissionRequest) : Prop :=
  ∃ fuel : Nat, simMain fuel numFlows q0 q1 q2 = some reqs

/-- The throughput of a flow in Mbps as the report states it: `rxBytes * 8 / rxDuration / 1e6`
with `rxDuration = timeLastRxPacket - timeFirstTxPacket` for a flow that received packets, zero
for a flow that received none. -/
def flowThroughput (s : FlowStats) : Option ℚ :=
  if 0 < s.rxPackets then
    (fdiv (s.rxBytes * 8) (s.timeLastRxPacket - s.timeFirstTxPacket)).map (fun v => v / 1000000)
  else some 0

/-- The mean delay of a flow in ms as the report states it: `1000 * delaySum / rxPackets` for a
flow that received packets, zero for a flow that received none. -/
def flowDelay (s : FlowStats) : Option ℚ :=
  if 0 < s.rxPackets then some (1000 * s.delaySum / s.rxPackets) else some 0

/-- The mean jitter of a flow in ms as the report states it. -/
def flowJitter (s : FlowStats) : Option ℚ :=
  if 0 < s.rxPackets then some (1000 * s.jitterSum / s.rxPackets) else some 0

/-- The sum of `double` values, any of which may be not finite, taken from left to right. -/
def optSum (l : List (Option ℚ)) : Option ℚ :=
  l.foldl optAdd (some 0)

/-- The offered load in Mbps: `txBytes * 8 / activeDuration / 1e6`. -/
def offeredLoad (activeDuration : ℚ) (txBytes : Nat) : Option ℚ :=
  (fdiv (txBytes * 8) activeDuration).map (fun v => v / 1000000)

/-- What one pass of a reporting loop over the flow `i` has to do, from sums `acc` to `acc'`:
it writes one block `b`; for a flow that received packets the block holds the throughput over
`timeLastRxPacket - timeFirstTxPacket` (not a number when that duration is zero), the mean delay
and the mean jitter, and throughput and delay are added to the running sums; for a flow that
received none the three values are zero and the sums are left as they are. -/
def PerFlowStatistics (acc acc' : ReportAcc) (i : FlowEntry) : Prop :=
  ∃ b : FlowBlock, acc'.outFile = acc.outFile ++ [b] ∧
    (0 < i.second.rxPackets →
      (i.second.timeLastRxPacket - i.second.timeFirstTxPacket ≠ 0 →
        b.throughput = some (i.second.rxBytes * 8
          / (i.second.timeLastRxPacket - i.second.timeFirstTxPacket) / 1000000)) ∧
      (i.second.timeLastRxPacket - i.second.timeFirstTxPacket = 0 → b.throughput = none) ∧
      b.meanDelay = some (1000 * i.second.delaySum / i.second.rxPackets) ∧
      b.meanJitter = some (1000 * i.second.jitterSum / i.second.rxPackets) ∧
      acc'.averageFlowThroughput = optAdd acc.averageFlowThroughput b.throughput ∧
      acc'.averageFlowDelay = optAdd acc.averageFlowDelay b.meanDelay) ∧
    (i.second.rxPackets = 0 →
      b.throughput = some 0 ∧ b.meanDelay = some 0 ∧ b.meanJitter = some 0 ∧
      acc'.averageFlowThroughput = acc.averageFlowThroughput ∧
      acc'.averageFlowDelay = acc.averageFlowDelay)

/-- The sample flow of the specification: 125200 bytes sent and received in 100 packets, first
sent at 0.1 s, last received at 1.1 s (delay sum 0.5 s, jitter sum 0.1 s). -/
def sampleFlow1 : FlowEntry :=
  ⟨1, ⟨1, 2, 6, 49153, 1001⟩, ⟨100, 125200, 100, 125200, 1 / 2, 1 / 10, 1 / 10, 11 / 10⟩⟩

/-- A second sample flow: 250000 bytes received in 200 packets over two seconds. -/
def sampleFlow2 : FlowEntry :=
  ⟨2, ⟨1, 3, 6, 49154, 1101⟩, ⟨200, 250000, 200, 250000, 1, 1 / 5, 0, 2⟩⟩

/-- A third sample flow, which received nothing. -/
def sampleFlow3 : FlowEntry :=
  ⟨3, ⟨1, 4, 17, 49155, 1201⟩, ⟨50, 62600, 0, 0, 0, 0, 3 / 10, 0⟩⟩

/-- The interval that `ScheduleTx` passes to `Simulator::Schedule` for packet size `s` and bit
rate `r`. -/
def txInterval (Seconds : ℚ → ℚ) (s r : Nat) : ℚ :=
  Seconds ((((s * 8) % UINT32_RANGE : Nat) : ℚ) / (r : ℚ))

/-- The state of a run that started at `t0` from the idle generator and was never stopped, once
`j` packets have been sent (`1 ≤ j ≤ N`), for the interval `d` between sends. -/
def sentState (d : ℚ) (s N r : Nat) (t0 : ℚ) (j : Nat) : Simulation :=
  { app := { m_socket := some .connected, m_packetSize := s, m_nPackets := N, m_dataRate := r
             m_sendEvent := if j < N then some (j - 1) else if N ≤ 1 then none else some (N - 2)
             m_running := true, m_packetsSent := j }
    now := t0 + ((j - 1 : Nat) : ℚ) * d
    events := if j < N then [⟨t0 + (j : ℚ) * d, j - 1, false⟩] else []
    uid := if j < N then j else N - 1
    sent := List.map (fun k : Nat => t0 + (k : ℚ) * d) (List.range j) }

/-- What a line of the report holds after its label: the header of a flow, a counter, or a
number (not finite when `none`). -/
inductive LineValue where
  | header (flowId : Nat) (t : FiveTuple) (proto : String)
  | count (n : Nat)
  | number (x : Option ℚ)
  deriving DecidableEq, Repr

/-- The lines that the reporting loop writes for one flow, in the order of its `outFile <<`
statements, each with its label. -/
def FlowBlock.lines (b : FlowBlock) : List (String × LineValue) :=
  [("Flow", .header b.flowId b.t b.proto),
   ("Tx Packets", .count b.txPackets),
   ("Tx Bytes", .count b.txBytes),
   ("TxOffered", .number b.txOffered),
   ("Rx Bytes", .count b.rxBytes),
   ("Throughput", .number b.throughput),
   ("Mean delay", .number b.meanDelay),
   ("Mean jitter", .number b.meanJitter),
   ("Rx Packets", .count b.rxPackets)]

/-- The lines of the whole report: the blocks in order, then the two lines of the summary. -/
def Report.lines (r : Report) : List (String × LineValue) :=
  r.blocks.flatMap FlowBlock.lines
    ++ [("Mean flow throughput", .number r.meanFlowThroughput),
        ("Mean flow delay", .number r.meanFlowDelay)]

/-- The labels of one per-flow block, in order. -/
def blockLabels : List String :=
  ["Flow", "Tx Packets", "Tx Bytes", "TxOffered", "Rx Bytes", "Throughput", "Mean delay",
   "Mean jitter", "Rx Packets"]

/-- The labels of the summary block, in order. -/
def summaryLabels : List String :=
  ["Mean flow throughput", "Mean flow delay"]

/-- The port that the counter `dlPort` holds when the loop body runs for the device at flat
index `u`: started at 1234, incremented once per earlier device, in `uint16_t`. -/
def bwpPort (u : Nat) : Nat := (1234 + u) % UINT16_RANGE

/-- The send events of the generator that are pending: the entries of the event list that have
not been cancelled. -/
def pendingEvents (w : Simulation) : List SendEvent :=
  w.events.filter (fun e => !e.cancelled)

/-- The states reachable from the idle generator by one `StartApplication`, then, in any order
and number, send events fired by the event loop and calls of `StopApplication` (at any virtual
time `T`). -/
inductive Reachable (Seconds : ℚ → ℚ) (s N r : Nat) (t0 : ℚ) : Simulation → Prop where
  | start (w : Simulation) :
      RandomApp.StartApplication Seconds (idleSimulation s N r t0) = some w →
      Reachable Seconds s N r t0 w
  | fire (w w' : Simulation) :
      Reachable Seconds s N r t0 w → Simulator.ProcessOneEvent Seconds w = some w' →
      Reachable Seconds s N r t0 w'
  | stop (w : Simulation) (T : ℚ) :
      Reachable Seconds s N r t0 w →
      Reachable Seconds s N r t0 (RandomApp.StopApplication { w with now := T })

/-- The shape of the event list in a reachable state: empty, or one event that is either
cancelled or the generator's own send event, the generator running with budget left. -/
def SendInvariant (w : Simulation) : Prop :=
  w.events = [] ∨ ∃ e : SendEvent, w.events = [e] ∧
    (e.cancelled = true ∨
      (e.cancelled = false ∧ w.app.m_running = true
        ∧ w.app.m_packetsSent < w.app.m_nPackets ∧ w.app.m_sendEvent = some e.uid))

/-- The state right after `StartApplication` on the idle generator when the budget is 0 or 1:
one packet sent at `t0`, nothing scheduled. -/
def singleSendState (s N r : Nat) (t0 : ℚ) : Simulation :=
  { app := { m_socket := some .connected, m_packetSize := s, m_nPackets := N, m_dataRate := r
             m_sendEvent := none, m_running := true, m_packetsSent := 1 }
    now := t0, events := [], uid := 0, sent := [t0] }

/-! ## Grouping: lemmas -/

theorem groupLoop_of_lt {α : Type} (modulus : Nat) (ueNodes : List α) (bound : Nat)
    (hb : bound < modulus) (hl : bound ≤ ueNodes.length) :
    ∀ (fuel j : Nat) (group : List α), j ≤ bound → bound - j < fuel →
      groupLoop modulus ueNodes bound fuel j group
        = some (group ++ (ueNodes.drop j).take (bound - j)) := by
  intro fuel
  induction fuel with
  | zero => intro j group _ h; omega
  | succ fuel ih =>
    intro j group hj hf
    unfold groupLoop
    by_cases hlt : j < bound
    · have hjl : j < ueNodes.length := by omega
      have hmod : (j + 1) % modulus = j + 1 := Nat.mod_eq_of_lt (by omega)
      simp only [hlt, if_true, List.get?_eq_getElem?, List.getElem?_eq_getElem hjl, hmod]
      rw [ih (j + 1) (group ++ [ueNodes[j]]) (by omega) (by omega)]
      have hd : ueNodes.drop j = ueNodes[j] :: ueNodes.drop (j + 1) :=
        List.drop_eq_getElem_cons hjl
      have hs : bound - j = (bound - (j + 1)) + 1 := by omega
      rw [hd, hs, List.take_succ_cons]
      simp
    · have hz : bound - j = 0 := by omega
      simp [hlt, hz]

theorem groupLoop_wraps {α : Type} (modulus : Nat) (ueNodes : List α) (bound : Nat)
    (hm : 0 < modulus) (hb : modulus ≤ bound) :
    ∀ (fuel j : Nat) (group : List α), j < modulus →
      groupLoop modulus ueNodes bound fuel j group = none := by
  intro fuel
  induction fuel with
  | zero => intro j group _; rfl
  | succ fuel ih =>
    intro j group hj
    unfold groupLoop
    have hlt : j < bound := by omega
    simp only [hlt, if_true]
    cases ueNodes.get? j with
    | none => rfl
    | some ue => exact ih _ _ (Nat.mod_lt _ hm)

theorem groupLoop_some_eq {α : Type} (modulus : Nat) (ueNodes : List α) (bound : Nat)
    (hm : 0 < modulus) :
    ∀ (fuel j : Nat) (group r : List α), j ≤ bound → j < modulus →
      groupLoop modulus ueNodes bound fuel j group = some r →
      r = group ++ (ueNodes.drop j).take (bound - j) := by
  intro fuel
  induction fuel with
  | zero => intro j group r _ _ h; simp [groupLoop] at h
  | succ fuel ih =>
    intro j group r hj hjm h
    unfold groupLoop at h
    by_cases hlt : j < bound
    · simp only [hlt, if_true] at h
      by_cases hjl : j < ueNodes.length
      · simp only [List.get?_eq_getElem?, List.getElem?_eq_getElem hjl] at h
        by_cases hw : j + 1 < modulus
        · rw [Nat.mod_eq_of_lt hw] at h
          have h1 := ih (j + 1) _ r (by omega) hw h
          have hd : ueNodes.drop j = ueNodes[j] :: ueNodes.drop (j + 1) :=
            List.drop_eq_getElem_cons hjl
          have hs : bound - j = (bound - (j + 1)) + 1 := by omega
          rw [h1, hd, hs, List.take_succ_cons]
          simp
        · have hb : modulus ≤ bound := by omega
          rw [groupLoop_wraps modulus ueNodes bound hm hb fuel _ _ (Nat.mod_lt _ hm)] at h
          cases h
      · have hn : ueNodes.get? j = none := by
          rw [List.get?_eq_getElem?]; exact List.getElem?_eq_none (by omega)
        rw [hn] at h
        cases h
    · have hz : bound - j = 0 := by omega
      simp only [hlt, if_false, Option.some.injEq] at h
      subst h
      simp [hz]

/-- Below the wrap-around of the `uint16_t` counter the three groups are the contiguous index
ranges `[0,q0)`, `[q0,q0+q1)`, `[q0+q1,q0+q1+q2)` of the device list. -/
theorem groupUes_of_no_wrap {α : Type} (q0 q1 q2 : Nat) (ueNodes : List α)
    (h01 : q0 + q1 < UINT16_RANGE) (h2 : q2 < UINT16_RANGE)
    (hlen : ueNodes.length = q0 + q1 + q2) :
    groupUes (q0 + q1 + q2 + 1) q0 q1 q2 ueNodes
      = some (ueNodes.take q0, (ueNodes.drop q0).take q1, ueNodes.drop (q0 + q1)) := by
  have hU : UINT16_RANGE = 65536 := rfl
  have hI : INT_RANGE = 2147483648 := rfl
  unfold groupUes
  rw [groupLoop_of_lt INT_RANGE ueNodes q0 (by omega) (by omega) _ 0 [] (by omega) (by omega)]
  simp only
  rw [groupLoop_of_lt UINT16_RANGE ueNodes (q0 + q1) (by omega) (by omega) _ q0 []
    (by omega) (by omega)]
  simp only
  rw [groupLoop_of_lt INT_RANGE ueNodes (q0 + q1 + q2) (by omega) (by omega) _ (q0 + q1) []
    (by omega) (by omega)]
  have e1 : q0 + q1 - q0 = q1 := by omega
  have e2 : q0 + q1 + q2 - (q0 + q1) = q2 := by omega
  have e3 : (ueNodes.drop (q0 + q1)).length ≤ q2 := by simp [hlen]
  simp [e1, e2, List.take_of_length_le e3]

theorem groupUes_some_eq {α : Type} (fuel q0 q1 q2 : Nat) (ueNodes : List α)
    (g : List α × List α × List α)
    (h0 : q0 < UINT16_RANGE) (h1 : q1 < UINT16_RANGE)
    (h : groupUes fuel q0 q1 q2 ueNodes = some g) :
    g = (ueNodes.take q0, (ueNodes.drop q0).take q1, (ueNodes.drop (q0 + q1)).take q2) := by
  have hU : UINT16_RANGE = 65536 := rfl
  have hI : INT_RANGE = 2147483648 := rfl
  unfold groupUes at h
  cases hvr : groupLoop INT_RANGE ueNodes q0 fuel 0 [] with
  | none => rw [hvr] at h; cases h
  | some vr =>
    rw [hvr] at h
    cases hcg : groupLoop UINT16_RANGE ueNodes (q0 + q1) fuel q0 [] with
    | none => rw [hcg] at h; cases h
    | some cg =>
      rw [hcg] at h
      cases had : groupLoop INT_RANGE ueNodes (q0 + q1 + q2) fuel (q0 + q1) [] with
      | none => rw [had] at h; cases h
      | some ad =>
        rw [had] at h
        simp only [Option.some.injEq] at h
        subst h
        have e1 := groupLoop_some_eq INT_RANGE ueNodes q0 (by omega) fuel 0 [] vr
          (by omega) (by omega) hvr
        have e2 := groupLoop_some_eq UINT16_RANGE ueNodes (q0 + q1) (by omega) fuel q0 [] cg
          (by omega) (by omega) hcg
        have e3 := groupLoop_some_eq INT_RANGE ueNodes (q0 + q1 + q2) (by omega) fuel
          (q0 + q1) [] ad (by omega) (by omega) had
        have a1 : q0 + q1 - q0 = q1 := by omega
        have a2 : q0 + q1 + q2 - (q0 + q1) = q2 := by omega
        simp only [List.nil_append, Nat.sub_zero, List.drop_zero, a1, a2] at e1 e2 e3
        rw [e1, e2, e3]

/-! ## Admission: lemmas -/

theorem take_drop_range (N a b : Nat) (h : a + b ≤ N) :
    ((List.range N).drop a).take b = List.range' a b := by
  apply List.ext_getElem
  · simp; omega
  · intro i h1 h2
    simp [List.getElem_take, List.getElem_drop, List.getElem_range, List.getElem_range']

theorem ConfigureXrApp_isMx1 (i numFlows : Nat) (ueNetDev : List Nat) (bearer : EpsBearer)
    (tft : EpcTft) (tfts : List EpcTft) (activated : List AdmissionRequest)
    (hi : i < ueNetDev.length) :
    ConfigureXrApp i numFlows ueNetDev bearer tft true tfts activated
      = some (activated ++ [⟨ueNetDev[i], bearer, tft⟩, ⟨ueNetDev[i], bearer, tft⟩]) := by
  simp [ConfigureXrApp, List.getElem?_eq_getElem hi]

theorem forLoop_isMx1 (idx : Nat → Nat) (lo numFlows : Nat) (ueNetDev : List Nat)
    (bearer : EpsBearer) (tft : EpcTft) (tfts : List EpcTft) (hidx : ∀ k, idx (lo + k) = k) :
    ∀ (count k : Nat) (s : List AdmissionRequest), k + count ≤ ueNetDev.length →
      forLoop (fun u s => ConfigureXrApp (idx u) numFlows ueNetDev bearer tft true tfts s)
          count (lo + k) s
        = some (s ++ mx1Requests bearer tft ((ueNetDev.drop k).take count)) := by
  intro count
  induction count with
  | zero => intro k s _; simp [forLoop, mx1Requests]
  | succ count ih =>
    intro k s hk
    have hkl : k < ueNetDev.length := by omega
    unfold forLoop
    simp only [hidx k, ConfigureXrApp_isMx1 _ _ _ _ _ _ _ hkl]
    rw [Nat.add_assoc, ih (k + 1) _ (by omega)]
    have hd : ueNetDev.drop k = ueNetDev[k] :: ueNetDev.drop (k + 1) :=
      List.drop_eq_getElem_cons hkl
    rw [hd, List.take_succ_cons]
    simp [mx1Requests]

theorem simAdmission_eq (numFlows q0 q1 ueNodesN : Nat) (vr cg ad : List Nat)
    (hvr : q0 ≤ vr.length) (hcg : q1 ≤ cg.length) (had : ueNodesN - (q0 + q1) ≤ ad.length) :
    simAdmission numFlows q0 q1 ueNodesN vr cg ad
      = some (mx1Requests vrBearer vrTft (vr.take q0) ++ mx1Requests cgBearer cgTft (cg.take q1)
          ++ mx1Requests adBearer adTft (ad.take (ueNodesN - (q0 + q1)))) := by
  unfold simAdmission
  have e1 := forLoop_isMx1 (fun u => u) 0 numFlows vr vrBearer vrTft arTfts (by simp) q0 0 []
    (by omega)
  have e2 := forLoop_isMx1 (fun u => u - q0) q0 numFlows cg cgBearer cgTft arTfts
    (by intro k; simp) (q0 + q1 - q0) 0
  have e3 := forLoop_isMx1 (fun u => u - q0 - q1) (q0 + q1) numFlows ad adBearer adTft arTfts
    (by intro k; show q0 + q1 + k - q0 - q1 = k; omega) (ueNodesN - (q0 + q1)) 0
  have a1 : q0 + q1 - q0 = q1 := by omega
  simp only [Nat.add_zero, List.drop_zero, List.nil_append] at e1 e2 e3
  rw [e1]
  simp only
  rw [e2 _ (by omega)]
  simp only
  rw [e3 _ (by omega), a1]

theorem simMain_some_eq (fuel numFlows q0 q1 q2 : Nat) (reqs : List AdmissionRequest)
    (h0 : q0 < UINT16_RANGE) (h1 : q1 < UINT16_RANGE)
    (h : simMain fuel numFlows q0 q1 q2 = some reqs) : reqs = simRequests q0 q1 q2 := by
  unfold simMain at h
  simp only at h
  cases hg : groupUes fuel q0 q1 q2 (NodeContainer.Create (q0 + q1 + q2)) with
  | none => rw [hg] at h; cases h
  | some g =>
    have e := groupUes_some_eq fuel q0 q1 q2 _ g h0 h1 hg
    subst e
    rw [hg] at h
    simp only [InstallUeDevice, NodeContainer.Create, List.length_range] at h
    have t1 : (List.range (q0 + q1 + q2)).take q0 = List.range' 0 q0 := by
      have := take_drop_range (q0 + q1 + q2) 0 q0 (by omega)
      simpa using this
    have t2 := take_drop_range (q0 + q1 + q2) q0 q1 (by omega)
    have t3 := take_drop_range (q0 + q1 + q2) (q0 + q1) q2 (by omega)
    rw [t1, t2, t3, simAdmission_eq _ _ _ _ _ _ _ (by simp) (by simp) (by simp)] at h
    have a2 : q0 + q1 + q2 - (q0 + q1) = q2 := by omega
    simp only [Option.some.injEq, a2] at h
    rw [← h]
    unfold simRequests
    rw [List.take_of_length_le (l := List.range' 0 q0) (by simp),
      List.take_of_length_le (l := List.range' q0 q1) (by simp),
      List.take_of_length_le (l := List.range' (q0 + q1) q2) (by simp)]

theorem simMain_returns (numFlows q0 q1 q2 : Nat) (h01 : q0 + q1 < UINT16_RANGE)
    (h2 : q2 < UINT16_RANGE) :
    simMain (q0 + q1 + q2 + 1) numFlows q0 q1 q2 = some (simRequests q0 q1 q2) := by
  have hU : UINT16_RANGE = 65536 := rfl
  cases hm : simMain (q0 + q1 + q2 + 1) numFlows q0 q1 q2 with
  | some reqs => rw [simMain_some_eq _ _ _ _ _ reqs (by omega) (by omega) hm]
  | none =>
    exfalso
    unfold simMain at hm
    simp only at hm
    rw [groupUes_of_no_wrap q0 q1 q2 _ h01 h2 (by simp [NodeContainer.Create])] at hm
    simp only [InstallUeDevice, NodeContainer.Create, List.length_range] at hm
    rw [simAdmission_eq _ _ _ _ _ _ _ (by simp; omega) (by simp; omega) (by simp)] at hm
    cases hm

theorem mem_mx1Requests (bearer : EpsBearer) (tft : EpcTft) (devs : List Nat)
    (r : AdmissionRequest) :
    r ∈ mx1Requests bearer tft devs ↔ r.ueDevice ∈ devs ∧ r.bearer = bearer ∧ r.tft = tft := by
  unfold mx1Requests
  rw [List.mem_flatMap]
  constructor
  · rintro ⟨d, hd, hr⟩
    simp only [List.mem_cons, List.mem_singleton, or_self, List.not_mem_nil, or_false] at hr
    subst hr
    exact ⟨hd, rfl, rfl⟩
  · rintro ⟨hd, hb, ht⟩
    refine ⟨r.ueDevice, hd, ?_⟩
    cases r
    simp only at hb ht
    subst hb ht
    simp

theorem mem_simRequests (q0 q1 q2 : Nat) (r : AdmissionRequest) :
    r ∈ simRequests q0 q1 q2 ↔
      r.ueDevice < q0 + q1 + q2 ∧ r.bearer = simSliceBearer (sliceOf q0 q1 r.ueDevice)
        ∧ r.tft = [⟨simSlicePort (sliceOf q0 q1 r.ueDevice),
            simSlicePort (sliceOf q0 q1 r.ueDevice)⟩] := by
  unfold simRequests
  simp only [List.mem_append, mem_mx1Requests, List.mem_range'_1]
  by_cases h0 : r.ueDevice < q0
  · have hs : sliceOf q0 q1 r.ueDevice = 0 := by simp [sliceOf, h0]
    rw [hs]
    simp only [simSliceBearer, simSlicePort, vrTft]
    constructor
    · intro h
      rcases h with (⟨_, hb, ht⟩ | ⟨hc, _⟩) | ⟨hc, _⟩
      · exact ⟨by omega, hb, ht⟩
      · omega
      · omega
    · intro h
      exact Or.inl (Or.inl ⟨⟨by omega, by omega⟩, h.2.1, h.2.2⟩)
  · by_cases h1 : r.ueDevice < q0 + q1
    · have hs : sliceOf q0 q1 r.ueDevice = 1 := by simp [sliceOf, h0, h1]
      rw [hs]
      simp only [simSliceBearer, simSlicePort, cgTft]
      constructor
      · intro h
        rcases h with (⟨hc, _⟩ | ⟨_, hb, ht⟩) | ⟨hc, _⟩
        · omega
        · exact ⟨by omega, hb, ht⟩
        · omega
      · intro h
        exact Or.inl (Or.inr ⟨⟨by omega, by omega⟩, h.2.1, h.2.2⟩)
    · have hs : sliceOf q0 q1 r.ueDevice = 2 := by simp [sliceOf, h0, h1]
      rw [hs]
      simp only [simSliceBearer, simSlicePort, adTft]
      constructor
      · intro h
        rcases h with (⟨hc, _⟩ | ⟨hc, _⟩) | ⟨hc, hb, ht⟩
        · omega
        · omega
        · exact ⟨by omega, hb, ht⟩
      · intro h
        have h3 := h.1
        exact Or.inr ⟨⟨by omega, by omega⟩, h.2.1, h.2.2⟩

/-! ## bwp-network-slicing.cc: lemmas -/

theorem forLoop_bwpSliceBody (N : Nat) (qci : Qci) :
    ∀ (count u : Nat) (s : BwpState), u + count ≤ N →
      s.dlPort = (1234 + u) % UINT16_RANGE →
      forLoop (bwpSliceBody (InstallUeDevice (NodeContainer.Create N)) qci) count u s
        = some ⟨(1234 + (u + count)) % UINT16_RANGE,
            s.activated ++ (List.range' u count).map (bwpRequest qci)⟩ := by
  intro count
  induction count with
  | zero =>
    intro u s _ hp
    cases s
    simp only at hp
    simp [forLoop, hp]
  | succ count ih =>
    intro u s hu hp
    have hul : u < (List.range N).length := by simp; omega
    unfold forLoop
    simp only [bwpSliceBody, InstallUeDevice, NodeContainer.Create, List.get?_eq_getElem?,
      List.getElem?_eq_getElem hul, List.getElem_range]
    have hnext : (s.dlPort + 1) % UINT16_RANGE = (1234 + (u + 1)) % UINT16_RANGE := by
      rw [hp]; unfold UINT16_RANGE; omega
    have := ih (u + 1) ⟨(s.dlPort + 1) % UINT16_RANGE,
      s.activated ++ [⟨u, ⟨qci⟩, [⟨s.dlPort, s.dlPort⟩]⟩]⟩ (by omega) hnext
    simp only [InstallUeDevice, NodeContainer.Create] at this
    rw [this]
    have e : u + 1 + count = u + (count + 1) := by omega
    simp only [List.range'_succ, List.map_cons, bwpRequest, hp, e, List.append_assoc,
      List.singleton_append]

theorem bwpMain_eq (q0 q1 q2 : Nat) : bwpMain q0 q1 q2 = some (bwpRequests q0 q1 q2) := by
  unfold bwpMain
  simp only
  rw [forLoop_bwpSliceBody (q0 + q1 + q2) _ q0 0 ⟨1234, []⟩ (by omega) (by decide)]
  simp only
  rw [forLoop_bwpSliceBody (q0 + q1 + q2) _ (q0 + q1 - q0) q0 _ (by omega) (by simp)]
  simp only
  rw [forLoop_bwpSliceBody (q0 + q1 + q2) _ _ (q0 + q1) _
    (by simp [NodeContainer.Create]) (by simp)]
  have a1 : q0 + q1 - q0 = q1 := by omega
  have a2 : (NodeContainer.Create (q0 + q1 + q2)).length - (q0 + q1) = q2 := by
    simp [NodeContainer.Create]
  simp only [a1, a2, List.nil_append, bwpRequests]

theorem range'_three (q0 q1 q2 : Nat) :
    List.range' 0 (q0 + q1 + q2)
      = List.range' 0 q0 ++ List.range' q0 q1 ++ List.range' (q0 + q1) q2 := by
  have e1 := List.range'_append_1 0 q0 q1
  have e2 := List.range'_append_1 0 (q0 + q1) q2
  rw [Nat.zero_add] at e1 e2
  rw [e1, Nat.add_comm q1 q0, e2, Nat.add_comm q2]

theorem bwpRequests_ports (q0 q1 q2 : Nat) :
    (bwpRequests q0 q1 q2).map AdmissionRequest.ports
      = (List.range' 0 (q0 + q1 + q2)).map (fun u => [(1234 + u) % UINT16_RANGE]) := by
  rw [range'_three]
  simp only [bwpRequests, List.map_append, List.map_map]
  rfl

/-- Below the wrap-around of the `uint16_t` counter the grouping ends and the three groups have
the quota sizes, concatenate to the device list and are pairwise disjoint. -/
theorem groupUes_partition {α : Type} (q0 q1 q2 : Nat) (ueNodes : List α)
    (h01 : q0 + q1 < UINT16_RANGE) (h2 : q2 < UINT16_RANGE)
    (hlen : ueNodes.length = q0 + q1 + q2) (hnd : ueNodes.Nodup) :
    ∃ vr cg ad, groupUes (q0 + q1 + q2 + 1) q0 q1 q2 ueNodes = some (vr, cg, ad)
      ∧ vr.length = q0 ∧ cg.length = q1 ∧ ad.length = q2
      ∧ vr ++ cg ++ ad = ueNodes
      ∧ vr.Disjoint cg ∧ vr.Disjoint ad ∧ cg.Disjoint ad := by
  have hcat : ueNodes.take q0 ++ (ueNodes.drop q0).take q1 ++ ueNodes.drop (q0 + q1)
      = ueNodes := by
    rw [← List.take_add, List.take_append_drop]
  have hnd2 : (ueNodes.take q0 ++ (ueNodes.drop q0).take q1 ++ ueNodes.drop (q0 + q1)).Nodup := by
    rw [hcat]; exact hnd
  rw [List.nodup_append] at hnd2
  obtain ⟨h12, _, hd3⟩ := hnd2
  rw [List.nodup_append] at h12
  obtain ⟨_, _, hd12⟩ := h12
  refine ⟨_, _, _, groupUes_of_no_wrap q0 q1 q2 ueNodes h01 h2 hlen, ?_, ?_, ?_, hcat, hd12,
    ?_, ?_⟩
  · simp [hlen]; omega
  · simp [hlen]; omega
  · simp [hlen]
  · exact fun a ha hb => hd3 (List.mem_append_left _ ha) hb
  · exact fun a ha hb => hd3 (List.mem_append_right _ ha) hb

/-- The quotas (2, 3, 4) with nine devices: groups of sizes 2, 3 and 4. -/
theorem groupUes_2_3_4 :
    groupUes 10 2 3 4 (NodeContainer.Create 9) = some ([0, 1], [2, 3, 4], [5, 6, 7, 8]) := by
  decide

/-- C1 (failing input): with quotas (65535, 1, 0) and the 65536 devices created for them, the
grouping of `main` never produces its three groups: the `uint16_t` counter of the second loop
wraps from 65535 to 0 and stays below the bound 65536, whatever the number of steps allowed. -/
theorem groupUes_second_loop_never_exits :
    ∀ fuel : Nat, groupUes fuel 65535 1 0 (NodeContainer.Create (65535 + 1 + 0)) = none := by
  intro fuel
  unfold groupUes
  cases groupLoop INT_RANGE (NodeContainer.Create (65535 + 1 + 0)) 65535 fuel 0 [] with
  | none => rfl
  | some vr =>
    have hw := groupLoop_wraps UINT16_RANGE (NodeContainer.Create (65535 + 1 + 0)) (65535 + 1)
      (by decide) (by decide) fuel 65535 [] (by decide)
    simp only [hw]

theorem sliceOf_le (q0 q1 d : Nat) : sliceOf q0 q1 d ≤ 2 := by
  unfold sliceOf
  split
  · omega
  · split <;> omega

theorem simSlicePort_inj (i j : Nat) (hi : i ≤ 2) (hj : j ≤ 2)
    (h : simSlicePort i = simSlicePort j) : i = j := by
  interval_cases i <;> interval_cases j <;> first | rfl | (exact absurd h (by decide))

theorem SimRun_eq (numFlows q0 q1 q2 : Nat) (reqs : List AdmissionRequest)
    (h0 : q0 < UINT16_RANGE) (h1 : q1 < UINT16_RANGE) (h : SimRun numFlows q0 q1 q2 reqs) :
    reqs = simRequests q0 q1 q2 := by
  obtain ⟨fuel, hf⟩ := h
  exact simMain_some_eq fuel numFlows q0 q1 q2 reqs h0 h1 hf

theorem SimRun_exists (numFlows q0 q1 q2 : Nat) (h01 : q0 + q1 < UINT16_RANGE)
    (h2 : q2 < UINT16_RANGE) : ∃ reqs, SimRun numFlows q0 q1 q2 reqs :=
  ⟨simRequests q0 q1 q2, q0 + q1 + q2 + 1, simMain_returns numFlows q0 q1 q2 h01 h2⟩

/-- C2 (counterexample): with quotas (2, 0, 0) over TCP the run issues requests for two
different devices of the VR slice that carry the same (filter port, protocol) pair, so the pairs
of the issued requests are not pairwise distinct. -/
theorem sim_requests_repeat_port_pair :
    ∃ reqs r1 r2, simMain 3 1 2 0 0 = some reqs ∧ r1 ∈ reqs ∧ r2 ∈ reqs
      ∧ r1.ueDevice ≠ r2.ueDevice
      ∧ r1.portProtocol .TcpSocketFactory = r2.portProtocol .TcpSocketFactory
      ∧ ¬ (reqs.map (AdmissionRequest.portProtocol .TcpSocketFactory)).Nodup := by
  refine ⟨simRequests 2 0 0, ⟨0, vrBearer, vrTft⟩, ⟨1, vrBearer, vrTft⟩, ?_, ?_, ?_, ?_, ?_, ?_⟩
    <;> decide

/-- C2 (amended): every request of a run of sim-network-slicing.cc filters on the one port of
the slice of its device (1001 for VR, 1101 for CG, 1201 for AD), so two requests carry the same
(filter port, protocol) pair exactly when their devices belong to the same slice; and for quotas
below the wrap-around of the grouping counter the run does issue its requests. -/
theorem sim_requests_port_by_slice (numFlows q0 q1 q2 : Nat) (tp : TransportProtocol)
    (h0 : q0 < UINT16_RANGE) (h1 : q1 < UINT16_RANGE) :
    (∀ reqs, SimRun numFlows q0 q1 q2 reqs →
      (∀ r ∈ reqs, r.ports = [simSlicePort (sliceOf q0 q1 r.ueDevice)]) ∧
      (∀ r1 ∈ reqs, ∀ r2 ∈ reqs,
        (r1.portProtocol tp = r2.portProtocol tp
          ↔ sliceOf q0 q1 r1.ueDevice = sliceOf q0 q1 r2.ueDevice))) ∧
    (q0 + q1 < UINT16_RANGE → q2 < UINT16_RANGE → ∃ reqs, SimRun numFlows q0 q1 q2 reqs) := by
  refine ⟨?_, SimRun_exists numFlows q0 q1 q2⟩
  intro reqs hrun
  have hreq := SimRun_eq numFlows q0 q1 q2 reqs h0 h1 hrun
  subst hreq
  have hports : ∀ r ∈ simRequests q0 q1 q2,
      r.ports = [simSlicePort (sliceOf q0 q1 r.ueDevice)] := by
    intro r hr
    have ht := ((mem_simRequests q0 q1 q2 r).mp hr).2.2
    simp [AdmissionRequest.ports, ht]
  refine ⟨hports, ?_⟩
  intro r1 hr1 r2 hr2
  simp only [AdmissionRequest.portProtocol, Prod.mk.injEq, and_true, hports r1 hr1,
    hports r2 hr2, List.cons.injEq]
  constructor
  · intro h
    exact simSlicePort_inj _ _ (sliceOf_le _ _ _) (sliceOf_le _ _ _) h
  · intro h
    rw [h]

/-- C2 (witness): quotas (1, 2, 3) with one sub-flow per device. -/
theorem sim_requests_port_by_slice_witness :
    SimRun 1 1 2 3 (simRequests 1 2 3) ∧
      ((∀ r ∈ simRequests 1 2 3, r.ports = [simSlicePort (sliceOf 1 2 r.ueDevice)]) ∧
        (∀ r1 ∈ simRequests 1 2 3, ∀ r2 ∈ simRequests 1 2 3,
          (r1.portProtocol .TcpSocketFactory = r2.portProtocol .TcpSocketFactory
            ↔ sliceOf 1 2 r1.ueDevice = sliceOf 1 2 r2.ueDevice))) ∧
      ∃ reqs, SimRun 1 1 2 3 reqs :=
  have hrun : SimRun 1 1 2 3 (simRequests 1 2 3) := ⟨7, by decide⟩
  have h := sim_requests_port_by_slice 1 1 2 3 .TcpSocketFactory (by decide) (by decide)
  ⟨hrun, h.1 (simRequests 1 2 3) hrun, h.2 (by decide) (by decide)⟩

/-- C3 (counterexample): with quotas (65535, 2, 0) the 65537 requests of bwp-network-slicing.cc
do not carry pairwise distinct filter ports: the counter `dlPort` has wrapped and the last
request filters on port 1234 like the first. -/
theorem bwp_ports_repeat_after_wrap :
    ∃ reqs, bwpMain 65535 2 0 = some reqs ∧ ¬ (reqs.map AdmissionRequest.ports).Nodup := by
  refine ⟨bwpRequests 65535 2 0, bwpMain_eq 65535 2 0, ?_⟩
  rw [bwpRequests_ports]
  intro hnd
  have hinj := List.inj_on_of_nodup_map hnd
  have hm0 : (0 : Nat) ∈ List.range' 0 (65535 + 2 + 0) :=
    List.mem_range'_1.mpr ⟨Nat.le_refl 0, by decide⟩
  have hm1 : (65536 : Nat) ∈ List.range' 0 (65535 + 2 + 0) :=
    List.mem_range'_1.mpr ⟨by decide, by decide⟩
  have := hinj hm0 hm1 (by decide)
  exact absurd this (by decide)

/-- C3 (amended): for every quota triple with at most 65536 devices in all, the run of
bwp-network-slicing.cc issues one request per device and their filter ports are pairwise
distinct. -/
theorem bwp_ports_distinct (q0 q1 q2 : Nat) (hK : q0 + q1 + q2 ≤ UINT16_RANGE) :
    ∃ reqs, bwpMain q0 q1 q2 = some reqs ∧ reqs.length = q0 + q1 + q2
      ∧ (reqs.map AdmissionRequest.ports).Nodup := by
  refine ⟨bwpRequests q0 q1 q2, bwpMain_eq q0 q1 q2, ?_, ?_⟩
  · simp only [bwpRequests, List.length_append, List.length_map, List.length_range']
  · rw [bwpRequests_ports]
    apply List.Nodup.map_on _ (List.nodup_range' _ _)
    intro x hx y hy hxy
    have hx1 := (List.mem_range'_1.mp hx).2
    have hy1 := (List.mem_range'_1.mp hy).2
    simp only [List.cons.injEq, and_true] at hxy
    unfold UINT16_RANGE at hK hxy
    omega

/-- C3 (witness): the default quotas (2, 3, 4) of bwp-network-slicing.cc. -/
theorem bwp_ports_distinct_witness :
    ∃ reqs, bwpMain 2 3 4 = some reqs ∧ reqs.length = 2 + 3 + 4
      ∧ (reqs.map AdmissionRequest.ports).Nodup :=
  bwp_ports_distinct 2 3 4 (by decide)

/-- C4 (failing input): called in `isMx1` mode on a device with one sub-flow, as `main` does,
`ConfigureXrApp` issues two admission requests, both with the shared filter set: the activation
before the branch and the one inside it. In the other mode the activation before the branch
comes on top of the one per sub-flow. -/
theorem ConfigureXrApp_activates_shared_tft_twice (ueDevice : Nat) (bearer : EpsBearer)
    (tft tft0 : EpcTft) :
    ConfigureXrApp 0 1 [ueDevice] bearer tft true [] []
        = some [⟨ueDevice, bearer, tft⟩, ⟨ueDevice, bearer, tft⟩]
      ∧ ConfigureXrApp 0 1 [ueDevice] bearer tft false [tft0] []
        = some [⟨ueDevice, bearer, tft⟩, ⟨ueDevice, bearer, tft0⟩] := by
  constructor <;> rfl

/-- C5 (counterexample): with quotas (0, 1, 0) the run of sim-network-slicing.cc issues, for
the device of the CG slice, a request whose QoS class is not guaranteed-bitrate. -/
theorem sim_cg_request_class_not_gbr :
    ∃ reqs r, simMain 2 1 0 1 0 = some reqs ∧ r ∈ reqs ∧ sliceOf 0 1 r.ueDevice = 1
      ∧ r.bearer.qci.isGbr = false := by
  refine ⟨simRequests 0 1 0, ⟨0, cgBearer, cgTft⟩, ?_, ?_, ?_, ?_⟩ <;> decide

/-- C5 (amended): in a run of sim-network-slicing.cc the requests for devices of the VR slice
carry `NGBR_VIDEO_TCP_DEFAULT` (non-guaranteed-bitrate, video), those of the CG slice
`NGBR_VOICE_VIDEO_GAMING` (non-guaranteed-bitrate, a class that covers gaming) and those of the
AD slice `NGBR_V2X` (a vehicle-to-everything class); and for quotas below the wrap-around of the
grouping counter the run does issue its requests. -/
theorem sim_slice_qos_classes (numFlows q0 q1 q2 : Nat)
    (h0 : q0 < UINT16_RANGE) (h1 : q1 < UINT16_RANGE) :
    (∀ reqs, SimRun numFlows q0 q1 q2 reqs → ∀ r ∈ reqs,
      (sliceOf q0 q1 r.ueDevice = 0 → r.bearer.qci = .NGBR_VIDEO_TCP_DEFAULT) ∧
      (sliceOf q0 q1 r.ueDevice = 1 → r.bearer.qci = .NGBR_VOICE_VIDEO_GAMING) ∧
      (sliceOf q0 q1 r.ueDevice = 2 → r.bearer.qci = .NGBR_V2X)) ∧
    (Qci.NGBR_VIDEO_TCP_DEFAULT.isGbr = false
      ∧ TrafficKind.video ∈ Qci.NGBR_VIDEO_TCP_DEFAULT.serves) ∧
    (Qci.NGBR_VOICE_VIDEO_GAMING.isGbr = false
      ∧ TrafficKind.gaming ∈ Qci.NGBR_VOICE_VIDEO_GAMING.serves) ∧
    TrafficKind.v2x ∈ Qci.NGBR_V2X.serves ∧
    (q0 + q1 < UINT16_RANGE → q2 < UINT16_RANGE → ∃ reqs, SimRun numFlows q0 q1 q2 reqs) := by
  refine ⟨?_, by decide, by decide, by decide, SimRun_exists numFlows q0 q1 q2⟩
  intro reqs hrun r hr
  have hreq := SimRun_eq numFlows q0 q1 q2 reqs h0 h1 hrun
  subst hreq
  have hb := ((mem_simRequests q0 q1 q2 r).mp hr).2.1
  refine ⟨?_, ?_, ?_⟩ <;> intro hs <;> rw [hb, hs] <;> rfl

/-- C5 (witness): quotas (1, 2, 3) with one sub-flow per device. -/
theorem sim_slice_qos_classes_witness :
    SimRun 1 1 2 3 (simRequests 1 2 3) ∧ (∀ r ∈ simRequests 1 2 3,
      (sliceOf 1 2 r.ueDevice = 0 → r.bearer.qci = .NGBR_VIDEO_TCP_DEFAULT) ∧
      (sliceOf 1 2 r.ueDevice = 1 → r.bearer.qci = .NGBR_VOICE_VIDEO_GAMING) ∧
      (sliceOf 1 2 r.ueDevice = 2 → r.bearer.qci = .NGBR_V2X)) ∧
      ∃ reqs, SimRun 1 1 2 3 reqs :=
  have hrun : SimRun 1 1 2 3 (simRequests 1 2 3) := ⟨7, by decide⟩
  have h := sim_slice_qos_classes 1 1 2 3 (by decide) (by decide)
  ⟨hrun, h.1 (simRequests 1 2 3) hrun, h.2.2.2.2 (by decide) (by decide)⟩

/-- C6: in a run of sim-network-slicing.cc the QoS class of every request for a device of slice
`i` is the class that the BWP-manager configuration maps to segment `i`; for each `i` in
{0, 1, 2} that class is the only one mapped to segment `i`, and the three classes are pairwise
different; for quotas below the wrap-around of the grouping counter the run does issue its
requests. -/
theorem sim_class_bound_to_segment (numFlows q0 q1 q2 : Nat)
    (h0 : q0 < UINT16_RANGE) (h1 : q1 < UINT16_RANGE) :
    (∀ reqs, SimRun numFlows q0 q1 q2 reqs → ∀ r ∈ reqs,
      r.bearer = simSliceBearer (sliceOf q0 q1 r.ueDevice)
        ∧ simBwpManager r.bearer.qci = some (sliceOf q0 q1 r.ueDevice)) ∧
    (∀ i, i < 3 → ∀ c, (simBwpManager c = some i ↔ c = (simSliceBearer i).qci)) ∧
    ((simSliceBearer 0).qci ≠ (simSliceBearer 1).qci
      ∧ (simSliceBearer 0).qci ≠ (simSliceBearer 2).qci
      ∧ (simSliceBearer 1).qci ≠ (simSliceBearer 2).qci) ∧
    (q0 + q1 < UINT16_RANGE → q2 < UINT16_RANGE → ∃ reqs, SimRun numFlows q0 q1 q2 reqs) := by
  refine ⟨?_, ?_, by decide, SimRun_exists numFlows q0 q1 q2⟩
  · intro reqs hrun r hr
    have hreq := SimRun_eq numFlows q0 q1 q2 reqs h0 h1 hrun
    subst hreq
    have hb := ((mem_simRequests q0 q1 q2 r).mp hr).2.1
    refine ⟨hb, ?_⟩
    rw [hb]
    have hle := sliceOf_le q0 q1 r.ueDevice
    generalize sliceOf q0 q1 r.ueDevice = i at hle
    interval_cases i <;> rfl
  · intro i hi c
    interval_cases i <;> cases c <;> decide

/-- C6 (witness): quotas (1, 2, 3) with one sub-flow per device. -/
theorem sim_class_bound_to_segment_witness :
    SimRun 1 1 2 3 (simRequests 1 2 3) ∧ (∀ r ∈ simRequests 1 2 3,
      r.bearer = simSliceBearer (sliceOf 1 2 r.ueDevice)
        ∧ simBwpManager r.bearer.qci = some (sliceOf 1 2 r.ueDevice)) ∧
      ∃ reqs, SimRun 1 1 2 3 reqs :=
  have hrun : SimRun 1 1 2 3 (simRequests 1 2 3) := ⟨7, by decide⟩
  have h := sim_class_bound_to_segment 1 1 2 3 (by decide) (by decide)
  ⟨hrun, h.1 (simRequests 1 2 3) hrun, h.2.2.2 (by decide) (by decide)⟩

/-! ## Spectrum and transmit power -/

theorem makeBand_cc {K : Type} [Field K] (numCcs : Nat) (cB B : K) (cs bs : Fin numCcs → K)
    (n : Fin numCcs) :
    (makeBand numCcs cB B cs bs).m_cc.get? n.val = some (makeCc n.val (cs n) (bs n)) := by
  simp [makeBand, List.get?_ofFn, List.ofFnNthVal, n.isLt]

theorem makeBand_GetBwpAt {K : Type} [Field K] (numCcs : Nat) (cB B : K)
    (cs bs : Fin numCcs → K) (n : Fin numCcs) :
    (makeBand numCcs cB B cs bs).GetBwpAt n.val 0
      = some ⟨n.val, cs n, bs n, cs n - bs n / 2, cs n + bs n / 2⟩ := by
  unfold OperationBandInfo.GetBwpAt
  rw [makeBand_cc]
  rfl

/-- C7: for every band and every segment definition (centre `cs n`, bandwidth `bs n`), over an
ordered field: the band edges are centre minus and plus half the bandwidth; carrier `n` of the
band has id `n`, the given centre and bandwidth, edges centre minus and plus half the bandwidth,
so that their difference is the bandwidth and their midpoint the centre; and its one bandwidth
part copies the carrier's id, centre, bandwidth and both edges. -/
theorem makeBand_edges {K : Type} [LinearOrderedField K] (numCcs : Nat) (cB B : K)
    (cs bs : Fin numCcs → K) :
    (makeBand numCcs cB B cs bs).m_lowerFrequency = cB - B / 2
      ∧ (makeBand numCcs cB B cs bs).m_higherFrequency = cB + B / 2
      ∧ (makeBand numCcs cB B cs bs).m_cc.length = numCcs
      ∧ ∀ n : Fin numCcs, ∃ cc, (makeBand numCcs cB B cs bs).m_cc.get? n.val = some cc
          ∧ cc.m_ccId = n.val ∧ cc.m_centralFrequency = cs n ∧ cc.m_channelBandwidth = bs n
          ∧ cc.m_lowerFrequency = cs n - bs n / 2 ∧ cc.m_higherFrequency = cs n + bs n / 2
          ∧ cc.m_higherFrequency - cc.m_lowerFrequency = bs n
          ∧ (cc.m_lowerFrequency + cc.m_higherFrequency) / 2 = cs n
          ∧ cc.m_bwp = [⟨cc.m_ccId, cc.m_centralFrequency, cc.m_channelBandwidth,
              cc.m_lowerFrequency, cc.m_higherFrequency⟩] := by
  refine ⟨rfl, rfl, by simp [makeBand], ?_⟩
  intro n
  refine ⟨makeCc n.val (cs n) (bs n), makeBand_cc numCcs cB B cs bs n, rfl, rfl, rfl, rfl, rfl,
    ?_, ?_, rfl⟩
  · simp only [makeCc]; ring
  · simp only [makeCc]; ring

theorem rpow_txPower (P B b : ℝ) (hB : 0 < B) (hb : 0 < b) :
    (10 : ℝ) ^ ((10 * Real.logb 10 ((b / B) * (10 : ℝ) ^ (P / 10))) / 10)
      = (b / B) * (10 : ℝ) ^ (P / 10) := by
  have hx : 0 < (b / B) * (10 : ℝ) ^ (P / 10) :=
    mul_pos (div_pos hb hB) (Real.rpow_pos_of_pos (by norm_num) _)
  have e : (10 * Real.logb 10 ((b / B) * (10 : ℝ) ^ (P / 10))) / 10
      = Real.logb 10 ((b / B) * (10 : ℝ) ^ (P / 10)) := by ring
  rw [e, Real.rpow_logb (by norm_num) (by norm_num) hx]

/-- C8: for every total power `P`, band bandwidth `B > 0` and segment bandwidths `bs i > 0`, the
`TxPower` loop gives every segment a power `p i`, and the sum over the segments of
`10 ^ (p i / 10)` equals `10 ^ (P / 10)` times the sum of the ratios `bs i / B`; it equals
`10 ^ (P / 10)` whenever the segment bandwidths sum to `B`. -/
theorem txPower_sum (numCcs : Nat) (P cB B : ℝ) (cs bs : Fin numCcs → ℝ) (hB : 0 < B)
    (hb : ∀ i, 0 < bs i) :
    ∃ p : Fin numCcs → ℝ,
      (∀ n : Fin numCcs, gnbTxPower P B (makeBand numCcs cB B cs bs) n.val = some (p n))
      ∧ ∑ i, (10 : ℝ) ^ (p i / 10) = (10 : ℝ) ^ (P / 10) * ∑ i, bs i / B
      ∧ (∑ i, bs i = B → ∑ i, (10 : ℝ) ^ (p i / 10) = (10 : ℝ) ^ (P / 10)) := by
  refine ⟨fun i => 10 * Real.logb 10 ((bs i / B) * (10 : ℝ) ^ (P / 10)), ?_, ?_, ?_⟩
  · intro n
    simp only [gnbTxPower, makeBand_GetBwpAt]
  · simp only [rpow_txPower P B _ hB (hb _)]
    rw [Finset.mul_sum]
    exact Finset.sum_congr rfl (fun i _ => by ring)
  · intro hsum
    simp only [rpow_txPower P B _ hB (hb _)]
    rw [← Finset.sum_mul, ← Finset.sum_div, hsum, div_self (ne_of_gt hB), one_mul]

/-- C8 (witness): the defaults of sim-network-slicing.cc, where 2e9 + 0.5e9 + 0.5e9 = 3e9. -/
theorem txPower_sum_witness :
    ∃ p : Fin 3 → ℝ,
      (∀ n : Fin 3, gnbTxPower simTotalTxPower (simBandwidthBand ℝ) (simDefaultBand ℝ) n.val
        = some (p n))
      ∧ ∑ i, (10 : ℝ) ^ (p i / 10) = (10 : ℝ) ^ (simTotalTxPower / 10) := by
  have hB : (0 : ℝ) < simBandwidthBand ℝ := by unfold simBandwidthBand; norm_num
  have hb : ∀ i : Fin 3, (0 : ℝ) < simBandwidthCc ℝ i := by
    intro i; fin_cases i <;> simp [simBandwidthCc]
  have hsum : ∑ i, simBandwidthCc ℝ i = simBandwidthBand ℝ := by
    simp [Fin.sum_univ_three, simBandwidthCc, simBandwidthBand]; norm_num
  obtain ⟨p, hp, _, h3⟩ := txPower_sum 3 simTotalTxPower (simCentralFrequencyBand ℝ)
    (simBandwidthBand ℝ) (simCentralFrequencyCc ℝ) (simBandwidthCc ℝ) hB hb
  exact ⟨p, hp, h3 hsum⟩

/-- C9: for every total power `P`, band bandwidth `B > 0` and segment bandwidths `bs i > 0`, any
two segments `i`, `j` get powers `pi`, `pj` with
`10 ^ (pi / 10) / bs i = 10 ^ (pj / 10) / bs j = 10 ^ (P / 10) / B`, and a segment as wide as the
band gets exactly `P`. -/
theorem txPower_density (numCcs : Nat) (P cB B : ℝ) (cs bs : Fin numCcs → ℝ) (hB : 0 < B)
    (hb : ∀ i, 0 < bs i) (i j : Fin numCcs) :
    ∃ pi pj : ℝ, gnbTxPower P B (makeBand numCcs cB B cs bs) i.val = some pi
      ∧ gnbTxPower P B (makeBand numCcs cB B cs bs) j.val = some pj
      ∧ (10 : ℝ) ^ (pi / 10) / bs i = (10 : ℝ) ^ (pj / 10) / bs j
      ∧ (10 : ℝ) ^ (pj / 10) / bs j = (10 : ℝ) ^ (P / 10) / B
      ∧ (bs i = B → pi = P) := by
  have key : ∀ k : Fin numCcs,
      (10 : ℝ) ^ ((10 * Real.logb 10 ((bs k / B) * (10 : ℝ) ^ (P / 10))) / 10) / bs k
        = (10 : ℝ) ^ (P / 10) / B := by
    intro k
    rw [rpow_txPower P B _ hB (hb k)]
    have hk : bs k ≠ 0 := ne_of_gt (hb k)
    have hB0 : B ≠ 0 := ne_of_gt hB
    field_simp
    ring
  refine ⟨10 * Real.logb 10 ((bs i / B) * (10 : ℝ) ^ (P / 10)),
    10 * Real.logb 10 ((bs j / B) * (10 : ℝ) ^ (P / 10)), ?_, ?_, ?_, key j, ?_⟩
  · simp only [gnbTxPower, makeBand_GetBwpAt]
  · simp only [gnbTxPower, makeBand_GetBwpAt]
  · rw [key i, key j]
  · intro hiB
    rw [hiB, div_self (ne_of_gt hB), one_mul, Real.logb_rpow (by norm_num) (by norm_num)]
    ring

/-- C9 (witness): carriers 0 and 1 of the defaults of sim-network-slicing.cc. -/
theorem txPower_density_witness :
    ∃ pi pj : ℝ, gnbTxPower simTotalTxPower (simBandwidthBand ℝ) (simDefaultBand ℝ) 0 = some pi
      ∧ gnbTxPower simTotalTxPower (simBandwidthBand ℝ) (simDefaultBand ℝ) 1 = some pj
      ∧ (10 : ℝ) ^ (pi / 10) / simBandwidthCc ℝ 0 = (10 : ℝ) ^ (pj / 10) / simBandwidthCc ℝ 1
      ∧ (10 : ℝ) ^ (pj / 10) / simBandwidthCc ℝ 1
          = (10 : ℝ) ^ (simTotalTxPower / 10) / simBandwidthBand ℝ := by
  have hB : (0 : ℝ) < simBandwidthBand ℝ := by unfold simBandwidthBand; norm_num
  have hb : ∀ i : Fin 3, (0 : ℝ) < simBandwidthCc ℝ i := by
    intro i; fin_cases i <;> simp [simBandwidthCc]
  obtain ⟨pi, pj, h1, h2, h3, h4, _⟩ := txPower_density 3 simTotalTxPower
    (simCentralFrequencyBand ℝ) (simBandwidthBand ℝ) (simCentralFrequencyCc ℝ)
    (simBandwidthCc ℝ) hB hb 0 1
  exact ⟨pi, pj, h1, h2, h3, h4⟩

/-- C10 (failing input): with the default configuration of sim-network-slicing.cc carrier 0
spans [26.5e9, 28.5e9] and carrier 1 spans [27.75e9, 28.25e9]: carrier 1 lies strictly inside
carrier 0, so the two overlap in more than an endpoint. -/
theorem simDefault_cc1_inside_cc0 :
    ∃ cc0 cc1, (simDefaultBand ℚ).m_cc.get? 0 = some cc0
      ∧ (simDefaultBand ℚ).m_cc.get? 1 = some cc1
      ∧ cc0.m_lowerFrequency = 26500000000 ∧ cc0.m_higherFrequency = 28500000000
      ∧ cc1.m_lowerFrequency = 27750000000 ∧ cc1.m_higherFrequency = 28250000000
      ∧ cc0.m_lowerFrequency < cc1.m_lowerFrequency
      ∧ cc1.m_higherFrequency < cc0.m_higherFrequency := by
  refine ⟨makeCc 0 (simCentralFrequencyCc ℚ 0) (simBandwidthCc ℚ 0),
    makeCc 1 (simCentralFrequencyCc ℚ 1) (simBandwidthCc ℚ 1),
    makeBand_cc 3 _ _ _ _ 0, makeBand_cc 3 _ _ _ _ 1, ?_, ?_, ?_, ?_, ?_, ?_⟩ <;>
  · simp [makeCc, simCentralFrequencyCc, simBandwidthCc, simCentralFrequencyBand]
    try norm_num

/-! ## Flow statistics report -/

theorem div_thousand_twice (v : ℚ) : v / 1000 / 1000 = v / 1000000 := by
  rw [div_div]; norm_num

theorem optAdd_zero (acc : Option ℚ) : optAdd acc (some 0) = acc := by
  cases acc <;> simp [optAdd]

theorem simReportFlow_perFlow (appDuration : Nat) (acc : ReportAcc) (i : FlowEntry) :
    PerFlowStatistics acc (simReportFlow appDuration acc i) i := by
  unfold PerFlowStatistics simReportFlow
  by_cases hrx : 0 < i.second.rxPackets
  · rw [if_pos hrx]
    refine ⟨_, rfl, fun _ => ⟨?_, ?_, rfl, rfl, rfl, rfl⟩, fun h0 => absurd h0 (by omega)⟩
    · intro hd
      simp [fdiv, hd, div_thousand_twice]
    · intro hd
      simp [fdiv, hd]
  · rw [if_neg hrx]
    exact ⟨_, rfl, fun h => absurd h hrx, fun _ => ⟨rfl, rfl, rfl, rfl, rfl⟩⟩

theorem bwpReportFlow_perFlow (simTime udpAppStartTime : ℚ) (acc : ReportAcc) (i : FlowEntry) :
    PerFlowStatistics acc (bwpReportFlow simTime udpAppStartTime acc i) i := by
  unfold PerFlowStatistics bwpReportFlow
  by_cases hrx : 0 < i.second.rxPackets
  · rw [if_pos hrx]
    refine ⟨_, rfl, fun _ => ⟨?_, ?_, rfl, rfl, rfl, rfl⟩, fun h0 => absurd h0 (by omega)⟩
    · intro hd
      simp [fdiv, hd, div_thousand_twice]
    · intro hd
      simp [fdiv, hd]
  · rw [if_neg hrx]
    exact ⟨_, rfl, fun h => absurd h hrx, fun _ => ⟨rfl, rfl, rfl, rfl, rfl⟩⟩

/-- C16: for every flow record and every value of the running sums, one pass of the reporting
loop of either scenario computes the per-flow statistics as stated: with packets received,
throughput `rxBytes * 8 / (timeLastRxPacket - timeFirstTxPacket) / 1e6`, mean delay
`1000 * delaySum / rxPackets`, mean jitter `1000 * jitterSum / rxPackets`, throughput and delay
added to the sums; with none received, three zeros and the sums unchanged. -/
theorem reportFlow_statistics (appDuration : Nat) (simTime udpAppStartTime : ℚ)
    (acc : ReportAcc) (i : FlowEntry) :
    PerFlowStatistics acc (simReportFlow appDuration acc i) i
      ∧ PerFlowStatistics acc (bwpReportFlow simTime udpAppStartTime acc i) i :=
  ⟨simReportFlow_perFlow appDuration acc i, bwpReportFlow_perFlow simTime udpAppStartTime acc i⟩

/-- C16 (witness): the sample flow gives a receive duration of 1.0 s, a throughput of
1.0016 Mbps and a mean delay of 5 ms, added to sums that were zero. -/
theorem reportFlow_statistics_witness :
    ∃ b : FlowBlock, (simReportFlow 10000 ⟨some 0, some 0, []⟩ sampleFlow1).outFile = [b]
      ∧ sampleFlow1.second.timeLastRxPacket - sampleFlow1.second.timeFirstTxPacket = 1
      ∧ b.throughput = some (10016 / 10000) ∧ b.meanDelay = some 5
      ∧ (simReportFlow 10000 ⟨some 0, some 0, []⟩ sampleFlow1).averageFlowThroughput
          = some (10016 / 10000) := by
  obtain ⟨b, hout, hpos, _⟩ :=
    (reportFlow_statistics 10000 1 (1 / 10) ⟨some 0, some 0, []⟩ sampleFlow1).1
  have hrx : 0 < sampleFlow1.second.rxPackets := by decide
  obtain ⟨hthr, _, hdel, _, hsum, _⟩ := hpos hrx
  have hdur : sampleFlow1.second.timeLastRxPacket - sampleFlow1.second.timeFirstTxPacket = 1 := by
    simp only [sampleFlow1]; norm_num
  have hthr' : b.throughput = some (10016 / 10000) := by
    rw [hthr (by rw [hdur]; norm_num), hdur]
    simp only [sampleFlow1]; norm_num
  refine ⟨b, by simpa using hout, hdur, hthr', ?_, ?_⟩
  · rw [hdel]; simp only [sampleFlow1]; norm_num
  · rw [hsum, hthr']; simp [optAdd]

theorem simReportFlow_sums (appDuration : Nat) (acc : ReportAcc) (i : FlowEntry) :
    (simReportFlow appDuration acc i).averageFlowThroughput
        = optAdd acc.averageFlowThroughput (flowThroughput i.second)
      ∧ (simReportFlow appDuration acc i).averageFlowDelay
        = optAdd acc.averageFlowDelay (flowDelay i.second) := by
  unfold simReportFlow flowThroughput flowDelay
  by_cases hrx : 0 < i.second.rxPackets
  · rw [if_pos hrx, if_pos hrx, if_pos hrx]
    simp only [div_thousand_twice, and_self]
  · rw [if_neg hrx, if_neg hrx, if_neg hrx]
    simp only [optAdd_zero, and_self]

theorem bwpReportFlow_sums (simTime udpAppStartTime : ℚ) (acc : ReportAcc) (i : FlowEntry) :
    (bwpReportFlow simTime udpAppStartTime acc i).averageFlowThroughput
        = optAdd acc.averageFlowThroughput (flowThroughput i.second)
      ∧ (bwpReportFlow simTime udpAppStartTime acc i).averageFlowDelay
        = optAdd acc.averageFlowDelay (flowDelay i.second) := by
  unfold bwpReportFlow flowThroughput flowDelay
  by_cases hrx : 0 < i.second.rxPackets
  · rw [if_pos hrx, if_pos hrx, if_pos hrx]
    simp only [div_thousand_twice, and_self]
  · rw [if_neg hrx, if_neg hrx, if_neg hrx]
    simp only [optAdd_zero, and_self]

theorem foldl_report_sums (f : ReportAcc → FlowEntry → ReportAcc)
    (hf : ∀ acc i, (f acc i).averageFlowThroughput
        = optAdd acc.averageFlowThroughput (flowThroughput i.second)
      ∧ (f acc i).averageFlowDelay = optAdd acc.averageFlowDelay (flowDelay i.second)) :
    ∀ (stats : List FlowEntry) (acc : ReportAcc),
      (stats.foldl f acc).averageFlowThroughput
          = (stats.map (fun i => flowThroughput i.second)).foldl optAdd acc.averageFlowThroughput
        ∧ (stats.foldl f acc).averageFlowDelay
          = (stats.map (fun i => flowDelay i.second)).foldl optAdd acc.averageFlowDelay := by
  intro stats
  induction stats with
  | nil => intro acc; exact ⟨rfl, rfl⟩
  | cons i rest ih =>
    intro acc
    simp only [List.foldl_cons, List.map_cons]
    rw [(ih (f acc i)).1, (ih (f acc i)).2, (hf acc i).1, (hf acc i).2]
    exact ⟨rfl, rfl⟩

theorem fdiv_length (a : ℚ) (stats : List FlowEntry) (hne : stats ≠ []) :
    fdiv a stats.length = some (a / stats.length) := by
  have h : (stats.length : ℚ) ≠ 0 := by
    exact_mod_cast (List.length_pos.mpr hne).ne'
  simp [fdiv, h]

/-- C17: for every non-empty flow table, in either scenario, the reported mean flow throughput
is the sum of the per-flow throughputs (zero for a flow that received nothing) divided by the
number of flows in the table, and the reported mean flow delay is the sum of the per-flow mean
delays divided by the same number. -/
theorem report_means (appDuration : Nat) (simTime udpAppStartTime : ℚ)
    (stats : List FlowEntry) (hne : stats ≠ []) :
    ∃ r r' : Report, simReportPhase true appDuration stats = (0, some r)
      ∧ bwpReportPhase true simTime udpAppStartTime stats = (0, some r')
      ∧ r.meanFlowThroughput
          = (optSum (stats.map (fun i => flowThroughput i.second))).map
              (fun a : ℚ => a / (stats.length : ℚ))
      ∧ r.meanFlowDelay
          = (optSum (stats.map (fun i => flowDelay i.second))).map
              (fun a : ℚ => a / (stats.length : ℚ))
      ∧ r'.meanFlowThroughput = r.meanFlowThroughput
      ∧ r'.meanFlowDelay = r.meanFlowDelay := by
  have hs := foldl_report_sums (simReportFlow appDuration) (simReportFlow_sums appDuration)
    stats ⟨some 0, some 0, []⟩
  have hb := foldl_report_sums (bwpReportFlow simTime udpAppStartTime)
    (bwpReportFlow_sums simTime udpAppStartTime) stats ⟨some 0, some 0, []⟩
  have hdiv : ∀ o : Option ℚ, o.bind (fun a => fdiv a stats.length)
      = o.map (fun a : ℚ => a / (stats.length : ℚ)) := by
    intro o
    cases o with
    | none => rfl
    | some a => simp [fdiv_length a stats hne]
  refine ⟨_, _, rfl, rfl, ?_, ?_, ?_, ?_⟩
  · simp only [hs.1, hdiv, optSum]
  · simp only [hs.2, hdiv, optSum]
  · simp only [hs.1, hb.1]
  · simp only [hs.2, hb.2]

/-- C17 (witness): three flows of which the third received nothing: the mean throughput is
(1.0016 + 1 + 0) / 3, not (1.0016 + 1) / 2. -/
theorem report_means_witness :
    ∃ r : Report, simReportPhase true 10000 [sampleFlow1, sampleFlow2, sampleFlow3] = (0, some r)
      ∧ r.meanFlowThroughput = some ((10016 / 10000 + 1 + 0) / 3)
      ∧ r.meanFlowThroughput ≠ some ((10016 / 10000 + 1) / 2)
      ∧ r.meanFlowDelay = some ((5 + 5 + 0) / 3) := by
  obtain ⟨r, _, hr, _, hthr, hdel, _, _⟩ :=
    report_means 10000 1 (1 / 10) [sampleFlow1, sampleFlow2, sampleFlow3] (by simp)
  have e1 : optSum ([sampleFlow1, sampleFlow2, sampleFlow3].map
      (fun i => flowThroughput i.second)) = some (10016 / 10000 + 1 + 0) := by
    simp [optSum, flowThroughput, fdiv, optAdd, sampleFlow1, sampleFlow2, sampleFlow3]
    norm_num
  have e2 : optSum ([sampleFlow1, sampleFlow2, sampleFlow3].map
      (fun i => flowDelay i.second)) = some (5 + 5 + 0) := by
    simp [optSum, flowDelay, optAdd, sampleFlow1, sampleFlow2, sampleFlow3]
    norm_num
  refine ⟨r, hr, ?_, ?_, ?_⟩
  · rw [hthr, e1]; simp
  · rw [hthr, e1]; simp; norm_num
  · rw [hdel, e2]; simp

/-- C18 (counterexample): on an empty flow table the reporting phase of sim-network-slicing.cc
(file opened, default `appDuration`) divides the zero sums by the flow count zero: neither mean
of the summary block is a number, so neither is reported as 0. -/
theorem report_empty_means_not_zero :
    ¬ ∃ r : Report, (simReportPhase true 10000 []).2 = some r
      ∧ (r.meanFlowThroughput = some 0 ∨ r.meanFlowDelay = some 0) := by
  rintro ⟨r, hr, h⟩
  have e : (simReportPhase true 10000 []).2 = some ⟨[], none, none⟩ := by
    simp [simReportPhase, fdiv]
  rw [e] at hr
  cases hr
  rcases h with h | h <;> cases h

/-- C18 (amended): on an empty flow table the reporting phase of either scenario writes no
per-flow block, leaves both sums at zero and divides them by the flow count zero without any
guard, so neither mean of the summary block is a number; the exit status is 0. -/
theorem report_empty (appDuration : Nat) (simTime udpAppStartTime : ℚ) :
    simReportPhase true appDuration [] = (0, some ⟨[], none, none⟩)
      ∧ bwpReportPhase true simTime udpAppStartTime [] = (0, some ⟨[], none, none⟩)
      ∧ ([] : List FlowEntry).foldl (simReportFlow appDuration) ⟨some 0, some 0, []⟩
          = ⟨some 0, some 0, []⟩
      ∧ fdiv 0 (([] : List FlowEntry).length) = none := by
  refine ⟨?_, ?_, rfl, ?_⟩
  · simp [simReportPhase, fdiv]
  · simp [bwpReportPhase, fdiv]
  · simp [fdiv]

theorem foldl_report_offered (f : ReportAcc → FlowEntry → ReportAcc) (d : ℚ)
    (hf : ∀ acc i, ∃ b : FlowBlock, (f acc i).outFile = acc.outFile ++ [b]
      ∧ b.flowId = i.flowId ∧ b.txOffered = offeredLoad d i.second.txBytes) :
    ∀ (stats : List FlowEntry) (acc : ReportAcc),
      (stats.foldl f acc).outFile.map (fun b => (b.flowId, b.txOffered))
        = acc.outFile.map (fun b => (b.flowId, b.txOffered))
          ++ stats.map (fun i => (i.flowId, offeredLoad d i.second.txBytes)) := by
  intro stats
  induction stats with
  | nil => intro acc; simp
  | cons i rest ih =>
    intro acc
    obtain ⟨b, hb, hid, hoff⟩ := hf acc i
    simp only [List.foldl_cons, List.map_cons]
    rw [ih (f acc i), hb]
    simp [hid, hoff]

theorem simReportFlow_offered (appDuration : Nat) (acc : ReportAcc) (i : FlowEntry) :
    ∃ b : FlowBlock, (simReportFlow appDuration acc i).outFile = acc.outFile ++ [b]
      ∧ b.flowId = i.flowId
      ∧ b.txOffered = offeredLoad ((appDuration : ℚ) / 1000) i.second.txBytes := by
  unfold simReportFlow offeredLoad
  by_cases hrx : 0 < i.second.rxPackets
  · rw [if_pos hrx]
    exact ⟨_, rfl, rfl, by simp only [div_thousand_twice]⟩
  · rw [if_neg hrx]
    exact ⟨_, rfl, rfl, by simp only [div_thousand_twice]⟩

theorem bwpReportFlow_offered (simTime udpAppStartTime : ℚ) (acc : ReportAcc) (i : FlowEntry) :
    ∃ b : FlowBlock, (bwpReportFlow simTime udpAppStartTime acc i).outFile = acc.outFile ++ [b]
      ∧ b.flowId = i.flowId
      ∧ b.txOffered = offeredLoad (simTime - udpAppStartTime) i.second.txBytes := by
  unfold bwpReportFlow offeredLoad
  by_cases hrx : 0 < i.second.rxPackets
  · rw [if_pos hrx]
    exact ⟨_, rfl, rfl, by simp only [div_thousand_twice]⟩
  · rw [if_neg hrx]
    exact ⟨_, rfl, rfl, by simp only [div_thousand_twice]⟩

/-- C19: for every flow table, the blocks of the report list, flow by flow, the offered load
`txBytes * 8 / activeDuration / 1e6`, where the active duration is `appDuration / 1000` seconds
in sim-network-slicing.cc and `simTime - udpAppStartTime` in bwp-network-slicing.cc: a function
of the record's `txBytes` alone, the same whether or not the flow received a packet. -/
theorem report_offered_load (appDuration : Nat) (simTime udpAppStartTime : ℚ)
    (stats : List FlowEntry) :
    ∃ r r' : Report, simReportPhase true appDuration stats = (0, some r)
      ∧ bwpReportPhase true simTime udpAppStartTime stats = (0, some r')
      ∧ r.blocks.map (fun b => (b.flowId, b.txOffered))
          = stats.map (fun i => (i.flowId, offeredLoad ((appDuration : ℚ) / 1000) i.second.txBytes))
      ∧ r'.blocks.map (fun b => (b.flowId, b.txOffered))
          = stats.map (fun i =>
              (i.flowId, offeredLoad (simTime - udpAppStartTime) i.second.txBytes)) := by
  refine ⟨_, _, rfl, rfl, ?_, ?_⟩
  · have h := foldl_report_offered (simReportFlow appDuration) _
      (simReportFlow_offered appDuration) stats ⟨some 0, some 0, []⟩
    simpa using h
  · have h := foldl_report_offered (bwpReportFlow simTime udpAppStartTime) _
      (bwpReportFlow_offered simTime udpAppStartTime) stats ⟨some 0, some 0, []⟩
    simpa using h

theorem foldl_report_length (f : ReportAcc → FlowEntry → ReportAcc)
    (hf : ∀ acc i, ∃ b : FlowBlock, (f acc i).outFile = acc.outFile ++ [b]) :
    ∀ (stats : List FlowEntry) (acc : ReportAcc),
      (stats.foldl f acc).outFile.length = acc.outFile.length + stats.length := by
  intro stats
  induction stats with
  | nil => intro acc; simp
  | cons i rest ih =>
    intro acc
    obtain ⟨b, hb⟩ := hf acc i
    simp only [List.foldl_cons, List.length_cons]
    rw [ih (f acc i), hb]
    simp
    omega

/-- C20: the reporting phase of either scenario returns exit status 1 exactly when the output
file is not open; then nothing is written (no per-flow block, no summary); otherwise, for every
flow table, the empty one included, it returns 0 and has written a report with one block per
flow. -/
theorem report_exit_status (isOpen : Bool) (appDuration : Nat) (simTime udpAppStartTime : ℚ)
    (stats : List FlowEntry) :
    ((simReportPhase isOpen appDuration stats).1 = 1 ↔ isOpen = false)
      ∧ ((bwpReportPhase isOpen simTime udpAppStartTime stats).1 = 1 ↔ isOpen = false)
      ∧ (isOpen = false → simReportPhase isOpen appDuration stats = (1, none)
          ∧ bwpReportPhase isOpen simTime udpAppStartTime stats = (1, none))
      ∧ (isOpen = true → ∃ r r' : Report,
          simReportPhase isOpen appDuration stats = (0, some r)
          ∧ bwpReportPhase isOpen simTime udpAppStartTime stats = (0, some r')
          ∧ r.blocks.length = stats.length ∧ r'.blocks.length = stats.length) := by
  cases isOpen with
  | false => simp [simReportPhase, bwpReportPhase]
  | true =>
    refine ⟨by simp [simReportPhase], by simp [bwpReportPhase], by simp, fun _ => ?_⟩
    refine ⟨_, _, rfl, rfl, ?_, ?_⟩
    · have h := foldl_report_length (simReportFlow appDuration)
        (fun acc i => (simReportFlow_offered appDuration acc i).imp fun _ hb => hb.1)
        stats ⟨some 0, some 0, []⟩
      simpa using h
    · have h := foldl_report_length (bwpReportFlow simTime udpAppStartTime)
        (fun acc i => (bwpReportFlow_offered simTime udpAppStartTime acc i).imp fun _ hb => hb.1)
        stats ⟨some 0, some 0, []⟩
      simpa using h

/-- C20 (witness): a table of three flows, with the file not open and with the file open. -/
theorem report_exit_status_witness :
    simReportPhase false 10000 [sampleFlow1, sampleFlow2, sampleFlow3] = (1, none)
      ∧ bwpReportPhase false 1 (1 / 10) [sampleFlow1, sampleFlow2, sampleFlow3] = (1, none)
      ∧ ∃ r r' : Report,
          simReportPhase true 10000 [sampleFlow1, sampleFlow2, sampleFlow3] = (0, some r)
          ∧ bwpReportPhase true 1 (1 / 10) [sampleFlow1, sampleFlow2, sampleFlow3] = (0, some r')
          ∧ r.blocks.length = 3 ∧ r'.blocks.length = 3 :=
  ⟨((report_exit_status false 10000 1 (1 / 10) [sampleFlow1, sampleFlow2, sampleFlow3]).2.2.1
      rfl).1,
    ((report_exit_status false 10000 1 (1 / 10) [sampleFlow1, sampleFlow2, sampleFlow3]).2.2.1
      rfl).2,
    (report_exit_status true 10000 1 (1 / 10) [sampleFlow1, sampleFlow2, sampleFlow3]).2.2.2 rfl⟩

/-! ## RandomApp and the event loop -/

theorem StartApplication_idle (Seconds : ℚ → ℚ) (s N r : Nat) (t0 : ℚ)
    (hN : 1 ≤ N) (hN32 : N < UINT32_RANGE) (hr : 0 < r) :
    RandomApp.StartApplication Seconds (idleSimulation s N r t0)
      = some (sentState (txInterval Seconds s r) s N r t0 1) := by
  have hU : UINT32_RANGE = 4294967296 := rfl
  have hr0 : r ≠ 0 := by omega
  by_cases h1 : 1 < N
  · simp [RandomApp.StartApplication, idleSimulation, RandomApp.Setup, RandomApp.construct,
      RandomApp.SendPacket, RandomApp.ScheduleTx, Simulator.Schedule, insertEvent, sentState,
      txInterval, h1, hr0, hU, List.range_succ]
  · have hN1 : N = 1 := by omega
    subst hN1
    simp [RandomApp.StartApplication, idleSimulation, RandomApp.Setup, RandomApp.construct,
      RandomApp.SendPacket, sentState, hU, List.range_succ]

theorem ProcessOneEvent_sentState (Seconds : ℚ → ℚ) (s N r : Nat) (t0 : ℚ) (j : Nat)
    (hj : 1 ≤ j) (hjN : j < N) (hN32 : N < UINT32_RANGE) (hr : 0 < r) :
    Simulator.ProcessOneEvent Seconds (sentState (txInterval Seconds s r) s N r t0 j)
      = some (sentState (txInterval Seconds s r) s N r t0 (j + 1)) := by
  have hU : UINT32_RANGE = 4294967296 := rfl
  have hr0 : r ≠ 0 := by omega
  have hmod : (j + 1) % 4294967296 = j + 1 := Nat.mod_eq_of_lt (by omega)
  by_cases h1 : j + 1 < N
  · simp [Simulator.ProcessOneEvent, sentState, RandomApp.SendPacket, RandomApp.ScheduleTx,
      Simulator.Schedule, insertEvent, txInterval, hjN, h1, hr0, hU, hmod, List.range_succ]
    ring
  · have hN1 : N = j + 1 := by omega
    subst hN1
    have hj1 : ¬ (j + 1 ≤ 1) := by omega
    simp [Simulator.ProcessOneEvent, sentState, RandomApp.SendPacket, hU, hmod,
      List.range_succ, hj1]

theorem sentState_events_of_lt (d : ℚ) (s N r : Nat) (t0 : ℚ) (j : Nat) (hjN : j < N) :
    (sentState d s N r t0 j).events = [⟨t0 + (j : ℚ) * d, j - 1, false⟩] := by
  simp [sentState, hjN]

theorem sentState_events_of_ge (d : ℚ) (s N r : Nat) (t0 : ℚ) (j : Nat) (hjN : ¬ j < N) :
    (sentState d s N r t0 j).events = [] := by
  simp [sentState, hjN]

theorem iterate_sentState (Seconds : ℚ → ℚ) (s N r : Nat) (t0 : ℚ)
    (hN32 : N < UINT32_RANGE) (hr : 0 < r) :
    ∀ (k j : Nat), 1 ≤ j → j ≤ N →
      Simulator.iterate Seconds k (sentState (txInterval Seconds s r) s N r t0 j)
        = some (sentState (txInterval Seconds s r) s N r t0 (min (j + k) N)) := by
  intro k
  induction k with
  | zero =>
    intro j _ hjN
    simp [Simulator.iterate, Nat.min_eq_left hjN]
  | succ k ih =>
    intro j hj hjN
    by_cases hlt : j < N
    · simp only [Simulator.iterate, sentState_events_of_lt _ s N r t0 j hlt,
        ProcessOneEvent_sentState Seconds s N r t0 j hj hlt hN32 hr]
      rw [ih (j + 1) (by omega) (by omega)]
      congr 2
      omega
    · simp only [Simulator.iterate, sentState_events_of_ge _ s N r t0 j hlt]
      congr 2
      omega

theorem Run_sentState (Seconds : ℚ → ℚ) (s N r : Nat) (t0 : ℚ)
    (hN32 : N < UINT32_RANGE) (hr : 0 < r) :
    ∀ (fuel j : Nat), 1 ≤ j → j ≤ N → N - j < fuel →
      Simulator.Run Seconds fuel (sentState (txInterval Seconds s r) s N r t0 j)
        = some (sentState (txInterval Seconds s r) s N r t0 N) := by
  intro fuel
  induction fuel with
  | zero => intro j _ _ h; omega
  | succ fuel ih =>
    intro j hj hjN hf
    by_cases hlt : j < N
    · simp only [Simulator.Run, sentState_events_of_lt _ s N r t0 j hlt,
        ProcessOneEvent_sentState Seconds s N r t0 j hj hlt hN32 hr]
      exact ih (j + 1) (by omega) (by omega) (by omega)
    · have hjeq : j = N := by omega
      subst hjeq
      simp only [Simulator.Run, sentState_events_of_ge _ s j r t0 j hlt]

/-- C11: a generator with packet budget `N ≥ 1` and a positive data rate, started once from the
idle state and never stopped: `StartApplication` succeeds, the event loop runs to its end with
any fuel of at least `N`, and in the final state exactly `N` packets have been sent,
`m_packetsSent = N`, the event list is empty and no send event is pending. -/
theorem RandomApp_sends_budget (Seconds : ℚ → ℚ) (s N r : Nat) (t0 : ℚ)
    (hN : 1 ≤ N) (hN32 : N < UINT32_RANGE) (hr : 0 < r) :
    ∃ w0 w : Simulation,
      RandomApp.StartApplication Seconds (idleSimulation s N r t0) = some w0
      ∧ (∀ fuel, N ≤ fuel → Simulator.Run Seconds fuel w0 = some w)
      ∧ w.sent.length = N ∧ w.app.m_packetsSent = N ∧ w.events = []
      ∧ EventId.IsPending w.events w.app.m_sendEvent = false := by
  refine ⟨sentState (txInterval Seconds s r) s N r t0 1,
    sentState (txInterval Seconds s r) s N r t0 N,
    StartApplication_idle Seconds s N r t0 hN hN32 hr, ?_, ?_, rfl, ?_, ?_⟩
  · intro fuel hf
    exact Run_sentState Seconds s N r t0 hN32 hr fuel 1 (Nat.le_refl 1) hN (by omega)
  · simp [sentState]
  · simp [sentState]
  · have hev : (sentState (txInterval Seconds s r) s N r t0 N).events = [] :=
      sentState_events_of_ge _ s N r t0 N (Nat.lt_irrefl N)
    rw [hev]
    cases (sentState (txInterval Seconds s r) s N r t0 N).app.m_sendEvent <;>
      simp [EventId.IsPending]

/-- C11 (witness): packet size 1040, rate 1 Mbps, budget 1000: exactly 1000 packets. -/
theorem RandomApp_sends_budget_witness :
    ∃ w0 w : Simulation,
      RandomApp.StartApplication id (idleSimulation 1040 1000 1000000 0) = some w0
      ∧ (∀ fuel, 1000 ≤ fuel → Simulator.Run id fuel w0 = some w)
      ∧ w.sent.length = 1000 ∧ w.app.m_packetsSent = 1000 ∧ w.events = []
      ∧ EventId.IsPending w.events w.app.m_sendEvent = false :=
  RandomApp_sends_budget id 1040 1000 1000000 0 (by decide) (by decide) (by decide)

/-- C12: a generator with packet size `s`, `s * 8 < 2^32`, and data rate `r > 0`, started at
virtual time `t0` and never stopped: the `k`-th packet (`k = 0 .. N-1`) is sent at
`t0 + k * Seconds (s * 8 / r)`, where `Seconds` converts the quotient to a `Time`; with the exact
conversion (the identity) that is `t0 + k * (s * 8 / r)`. -/
theorem RandomApp_send_times (Seconds : ℚ → ℚ) (s N r : Nat) (t0 : ℚ)
    (hN : 1 ≤ N) (hN32 : N < UINT32_RANGE) (hs : s * 8 < UINT32_RANGE) (hr : 0 < r) :
    ∃ w0 w : Simulation,
      RandomApp.StartApplication Seconds (idleSimulation s N r t0) = some w0
      ∧ Simulator.Run Seconds N w0 = some w
      ∧ w.sent.length = N
      ∧ ∀ k, k < N → w.sent.get? k = some (t0 + (k : ℚ) * Seconds (((s : ℚ) * 8) / (r : ℚ))) := by
  have hint : txInterval Seconds s r = Seconds (((s : ℚ) * 8) / (r : ℚ)) := by
    unfold txInterval
    rw [Nat.mod_eq_of_lt hs]
    push_cast
    rfl
  refine ⟨sentState (txInterval Seconds s r) s N r t0 1,
    sentState (txInterval Seconds s r) s N r t0 N,
    StartApplication_idle Seconds s N r t0 hN hN32 hr,
    Run_sentState Seconds s N r t0 hN32 hr N 1 (Nat.le_refl 1) hN (by omega), ?_, ?_⟩
  · simp [sentState]
  · intro k hk
    simp [sentState, hint, List.getElem?_map, List.getElem?_range hk]

/-- C12 (witness): packet size 1040 and rate 1,000,000 bit/s with the exact conversion: the
sends are spaced by exactly 0.00832 s. -/
theorem RandomApp_send_times_witness :
    ∃ w0 w : Simulation,
      RandomApp.StartApplication id (idleSimulation 1040 1000 1000000 0) = some w0
      ∧ Simulator.Run id 1000 w0 = some w
      ∧ w.sent.length = 1000
      ∧ ∀ k, k < 1000 → w.sent.get? k = some ((k : ℚ) * (832 / 100000)) := by
  obtain ⟨w0, w, h0, h1, h2, h3⟩ :=
    RandomApp_send_times id 1040 1000 1000000 0 (by decide) (by decide) (by decide) (by decide)
  refine ⟨w0, w, h0, h1, h2, ?_⟩
  intro k hk
  rw [h3 k hk]
  simp only [id, zero_add]
  norm_num

theorem IsPending_Cancel (events : List SendEvent) (id : Option Nat) :
    EventId.IsPending (Simulator.Cancel events id) id = false := by
  cases id with
  | none => rfl
  | some u =>
    simp only [EventId.IsPending, Simulator.Cancel, List.any_map, List.any_eq_false,
      Function.comp]
    intro e _
    by_cases he : e.uid = u
    · simp [he]
    · simp [he]

theorem StopApplication_idem (w : Simulation) :
    RandomApp.StopApplication (RandomApp.StopApplication w) = RandomApp.StopApplication w := by
  unfold RandomApp.StopApplication
  by_cases hp : EventId.IsPending w.events w.app.m_sendEvent = true
  · cases hs : w.app.m_socket <;> simp [hp, hs, IsPending_Cancel]
  · cases hs : w.app.m_socket <;> simp [hp, hs]

theorem StopApplication_not_pending (w : Simulation)
    (hp : EventId.IsPending w.events w.app.m_sendEvent = false) :
    (RandomApp.StopApplication w).events = w.events
      ∧ (RandomApp.StopApplication w).now = w.now
      ∧ (RandomApp.StopApplication w).uid = w.uid
      ∧ (RandomApp.StopApplication w).sent = w.sent
      ∧ (RandomApp.StopApplication w).app
          = { w.app with m_running := false, m_socket := w.app.m_socket.map (fun _ => .closed) } := by
  unfold RandomApp.StopApplication
  cases hs : w.app.m_socket <;> simp [hp, hs]

theorem StopApplication_fields (w : Simulation) :
    (RandomApp.StopApplication w).app.m_running = false
      ∧ EventId.IsPending (RandomApp.StopApplication w).events
          (RandomApp.StopApplication w).app.m_sendEvent = false
      ∧ (RandomApp.StopApplication w).sent = w.sent
      ∧ (RandomApp.StopApplication w).uid = w.uid
      ∧ (RandomApp.StopApplication w).now = w.now
      ∧ (RandomApp.StopApplication w).app.m_packetsSent = w.app.m_packetsSent
      ∧ (RandomApp.StopApplication w).app.m_nPackets = w.app.m_nPackets
      ∧ (RandomApp.StopApplication w).app.m_dataRate = w.app.m_dataRate
      ∧ (w.app.m_socket ≠ none → (RandomApp.StopApplication w).app.m_socket = some .closed) := by
  unfold RandomApp.StopApplication
  by_cases hp : EventId.IsPending w.events w.app.m_sendEvent = true
  · cases hs : w.app.m_socket <;> simp [hp, hs, IsPending_Cancel]
  · cases hs : w.app.m_socket <;> simp [hp, hs]

/-- C14: `StopApplication` is idempotent on every state of the generator and the event list:
a second call yields the state of the first; and a call made when no send event is pending
leaves the event list, the clock and the record of sends as they are and only sets
`m_running` to false and closes the socket. -/
theorem StopApplication_idempotent (w : Simulation) :
    RandomApp.StopApplication (RandomApp.StopApplication w) = RandomApp.StopApplication w
      ∧ (EventId.IsPending w.events w.app.m_sendEvent = false →
          (RandomApp.StopApplication w).events = w.events
          ∧ (RandomApp.StopApplication w).now = w.now
          ∧ (RandomApp.StopApplication w).uid = w.uid
          ∧ (RandomApp.StopApplication w).sent = w.sent
          ∧ (RandomApp.StopApplication w).app
              = { w.app with m_running := false
                             m_socket := w.app.m_socket.map (fun _ => .closed) }) :=
  ⟨StopApplication_idem w, StopApplication_not_pending w⟩

theorem iterate_empty (Seconds : ℚ → ℚ) (w : Simulation) (h : w.events = []) :
    ∀ m, Simulator.iterate Seconds m w = some w := by
  intro m
  cases m with
  | zero => rfl
  | succ m => simp only [Simulator.iterate, h]

theorem iterate_all_cancelled (Seconds : ℚ → ℚ) :
    ∀ (m : Nat) (w : Simulation), (∀ e ∈ w.events, e.cancelled = true) →
      ∃ w', Simulator.iterate Seconds m w = some w' ∧ w'.sent = w.sent ∧ w'.app = w.app
        ∧ w'.uid = w.uid := by
  intro m
  induction m with
  | zero => intro w _; exact ⟨w, rfl, rfl, rfl, rfl⟩
  | succ m ih =>
    intro w hc
    cases hev : w.events with
    | nil => exact ⟨w, by simp only [Simulator.iterate, hev], rfl, rfl, rfl⟩
    | cons next rest =>
      have hnext : next.cancelled = true := hc next (by rw [hev]; exact List.mem_cons_self _ _)
      obtain ⟨w', h1, h2, h3, h4⟩ := ih { w with events := rest, now := next.ts }
        (fun e he => hc e (by rw [hev]; exact List.mem_cons_of_mem _ he))
      refine ⟨w', ?_, h2, h3, h4⟩
      simp only [Simulator.iterate, hev, Simulator.ProcessOneEvent, hnext, if_true]
      exact h1

/-- C13: a generator with budget `N ≥ 1` and positive rate, started once from idle; at any
point of its run (after any number `k` of passes of the event loop, at any virtual time `T`) at
which the budget is not exhausted, a send event is pending, and after `StopApplication` there:
`m_running` is false, the send event is no longer pending (every event left in the list is
cancelled), and after every number `m` of further passes of the event loop the record of sends
and `m_packetsSent` are what they were at the stop. -/
theorem StopApplication_prevents_sends (Seconds : ℚ → ℚ) (s N r : Nat) (t0 : ℚ) (k : Nat)
    (T : ℚ) (hN : 1 ≤ N) (hN32 : N < UINT32_RANGE) (hr : 0 < r) :
    ∃ w0 wk : Simulation,
      RandomApp.StartApplication Seconds (idleSimulation s N r t0) = some w0
      ∧ Simulator.iterate Seconds k w0 = some wk
      ∧ (wk.app.m_packetsSent < N →
          EventId.IsPending wk.events wk.app.m_sendEvent = true
          ∧ (RandomApp.StopApplication { wk with now := T }).app.m_running = false
          ∧ EventId.IsPending (RandomApp.StopApplication { wk with now := T }).events
              (RandomApp.StopApplication { wk with now := T }).app.m_sendEvent = false
          ∧ (∀ e ∈ (RandomApp.StopApplication { wk with now := T }).events, e.cancelled = true)
          ∧ ∀ m, ∃ w',
              Simulator.iterate Seconds m (RandomApp.StopApplication { wk with now := T }) = some w'
              ∧ w'.sent = wk.sent ∧ w'.app.m_packetsSent = wk.app.m_packetsSent
              ∧ w'.app.m_running = false) := by
  refine ⟨sentState (txInterval Seconds s r) s N r t0 1,
    sentState (txInterval Seconds s r) s N r t0 (min (1 + k) N),
    StartApplication_idle Seconds s N r t0 hN hN32 hr,
    iterate_sentState Seconds s N r t0 hN32 hr k 1 (Nat.le_refl 1) hN, ?_⟩
  intro hlt
  generalize hj : min (1 + k) N = j at hlt
  have hjN : j < N := by simpa [sentState] using hlt
  have hf := StopApplication_fields
    { sentState (txInterval Seconds s r) s N r t0 j with now := T }
  have hcanc : ∀ e ∈ (RandomApp.StopApplication
      { sentState (txInterval Seconds s r) s N r t0 j with now := T }).events,
      e.cancelled = true := by
    intro e he
    simp [RandomApp.StopApplication, sentState, hjN, EventId.IsPending, Simulator.Cancel] at he
    rw [he]
  refine ⟨by simp [sentState, hjN, EventId.IsPending], hf.1, hf.2.1, hcanc, ?_⟩
  intro m
  obtain ⟨w', h1, h2, h3, _⟩ := iterate_all_cancelled Seconds m _ hcanc
  refine ⟨w', h1, by rw [h2, hf.2.2.1], by rw [h3, hf.2.2.2.2.2.1], by rw [h3, hf.1]⟩

/-- C13 (witness): budget 1000, stopped at time 0.09 s after 10 passes of the event loop
(11 packets sent). -/
theorem StopApplication_prevents_sends_witness :
    ∃ w0 wk : Simulation,
      RandomApp.StartApplication id (idleSimulation 1040 1000 1000000 0) = some w0
      ∧ Simulator.iterate id 10 w0 = some wk
      ∧ wk.app.m_packetsSent = 11
      ∧ (RandomApp.StopApplication { wk with now := 9 / 100 }).app.m_running = false
      ∧ ∀ m, ∃ w',
          Simulator.iterate id m (RandomApp.StopApplication { wk with now := 9 / 100 }) = some w'
          ∧ w'.sent = wk.sent ∧ w'.app.m_packetsSent = 11 := by
  obtain ⟨w0, wk, h0, h1, h2⟩ := StopApplication_prevents_sends id 1040 1000 1000000 0 10
    (9 / 100) (by decide) (by decide) (by decide)
  have hk : wk = sentState (txInterval id 1040 1000000) 1040 1000 1000000 0 11 := by
    have h0' := StartApplication_idle id 1040 1000 1000000 0 (by decide) (by decide) (by decide)
    rw [h0'] at h0
    cases h0
    have h1' := iterate_sentState id 1040 1000 1000000 0 (by decide) (by decide) 10 1
      (by decide) (by decide)
    rw [h1'] at h1
    cases h1
    rfl
  have hsent : wk.app.m_packetsSent = 11 := by rw [hk]; rfl
  obtain ⟨_, hrun, _, _, hm⟩ := h2 (by rw [hsent]; decide)
  refine ⟨w0, wk, h0, h1, hsent, hrun, ?_⟩
  intro m
  obtain ⟨w', e1, e2, e3, _⟩ := hm m
  exact ⟨w', e1, e2, by rw [e3, hsent]⟩

/-- C14 (witness): the idle generator of `main`, on which no send event is pending. -/
theorem StopApplication_idempotent_witness :
    RandomApp.StopApplication (RandomApp.StopApplication (idleSimulation 1040 1000 1000000 0))
        = RandomApp.StopApplication (idleSimulation 1040 1000 1000000 0)
      ∧ (RandomApp.StopApplication (idleSimulation 1040 1000 1000000 0)).events = []
      ∧ (RandomApp.StopApplication (idleSimulation 1040 1000 1000000 0)).sent = [] :=
  have h := StopApplication_idempotent (idleSimulation 1040 1000 1000000 0)
  have h2 := h.2 rfl
  ⟨h.1, h2.1, h2.2.2.2.1⟩

theorem mem_insertEvent (e : SendEvent) (l : List SendEvent) : e ∈ insertEvent e l := by
  induction l with
  | nil => simp [insertEvent]
  | cons x rest ih =>
    unfold insertEvent
    split
    · exact List.mem_cons_self _ _
    · exact List.mem_cons_of_mem _ ih

theorem SendPacket_of_not_running (Seconds : ℚ → ℚ) (w w' : Simulation)
    (hrun : w.app.m_running = false) (h : RandomApp.SendPacket Seconds w = some w') :
    w'.app.m_running = false ∧ w'.uid = w.uid ∧ w'.events = w.events := by
  unfold RandomApp.SendPacket at h
  cases hs : w.app.m_socket with
  | none => rw [hs] at h; cases h
  | some sock =>
    rw [hs] at h
    simp only [RandomApp.ScheduleTx, hrun, Bool.false_eq_true, if_false, ite_self,
      Option.some.injEq] at h
    subst h
    exact ⟨by simp [hrun], rfl, rfl⟩

theorem iterate_of_not_running (Seconds : ℚ → ℚ) :
    ∀ (m : Nat) (w w' : Simulation), w.app.m_running = false →
      Simulator.iterate Seconds m w = some w' → w'.app.m_running = false ∧ w'.uid = w.uid := by
  intro m
  induction m with
  | zero =>
    intro w w' hrun h
    simp only [Simulator.iterate, Option.some.injEq] at h
    subst h
    exact ⟨hrun, rfl⟩
  | succ m ih =>
    intro w w' hrun h
    cases hev : w.events with
    | nil =>
      simp only [Simulator.iterate, hev, Option.some.injEq] at h
      subst h
      exact ⟨hrun, rfl⟩
    | cons next rest =>
      simp only [Simulator.iterate, hev, Simulator.ProcessOneEvent] at h
      by_cases hc : next.cancelled = true
      · simp only [hc, if_true] at h
        exact ih { w with events := rest, now := next.ts } w' hrun h
      · simp only [hc, Bool.false_eq_true, if_false] at h
        cases hsp : RandomApp.SendPacket Seconds { w with events := rest, now := next.ts } with
        | none => rw [hsp] at h; cases h
        | some w1 =>
          rw [hsp] at h
          obtain ⟨h1, h2, _⟩ := SendPacket_of_not_running Seconds
            { w with events := rest, now := next.ts } w1 hrun hsp
          obtain ⟨h3, h4⟩ := ih w1 w' h1 h
          exact ⟨h3, by rw [h4, h2]⟩

theorem StartApplication_any (Seconds : ℚ → ℚ) (w : Simulation)
    (hs : w.app.m_socket ≠ none) (hr : 0 < w.app.m_dataRate) :
    ∃ w1, RandomApp.StartApplication Seconds w = some w1
      ∧ w1.app.m_running = true ∧ w1.app.m_packetsSent = 1 ∧ w1.sent = w.sent ++ [w.now]
      ∧ (1 < w.app.m_nPackets →
          EventId.IsPending w1.events w1.app.m_sendEvent = true ∧ w1.uid = w.uid + 1)
      ∧ (¬ 1 < w.app.m_nPackets → w1.events = w.events ∧ w1.uid = w.uid) := by
  have hU : UINT32_RANGE = 4294967296 := rfl
  have hr0 : w.app.m_dataRate ≠ 0 := by omega
  cases hsock : w.app.m_socket with
  | none => exact absurd hsock hs
  | some sock =>
    by_cases h1 : 1 < w.app.m_nPackets
    · refine ⟨{ app := { w.app with m_socket := some .connected, m_sendEvent := some w.uid
                                    m_running := true, m_packetsSent := 1 }
                now := w.now
                events := insertEvent
                  ⟨w.now + txInterval Seconds w.app.m_packetSize w.app.m_dataRate, w.uid, false⟩
                  w.events
                uid := w.uid + 1
                sent := w.sent ++ [w.now] }, ?_, rfl, rfl, rfl, fun _ => ⟨?_, rfl⟩,
        fun h => absurd h1 h⟩
      · simp only [RandomApp.StartApplication, hsock, RandomApp.SendPacket,
          RandomApp.ScheduleTx, Simulator.Schedule, hU, Nat.zero_add, Nat.one_mod, h1, if_true,
          hr0, if_false, txInterval]
      · simp only [EventId.IsPending, List.any_eq_true]
        exact ⟨_, mem_insertEvent _ _, by simp⟩
    · refine ⟨{ app := { w.app with m_socket := some .connected, m_running := true
                                    m_packetsSent := 1 }
                now := w.now, events := w.events, uid := w.uid
                sent := w.sent ++ [w.now] }, ?_, rfl, rfl, rfl, fun h => absurd h h1,
        fun _ => ⟨rfl, rfl⟩⟩
      simp only [RandomApp.StartApplication, hsock, RandomApp.SendPacket, hU, Nat.zero_add,
        Nat.one_mod, h1, if_false]

/-- C15 (counterexample): the generator of `main` (size 1040, budget 1000, 1 Mbps) is started,
stopped, and started again: after the second `StartApplication` it is running again, has sent
one more packet and has a send event pending. -/
theorem stopped_generator_restarts :
    ∃ w0 w1 : Simulation,
      RandomApp.StartApplication id (idleSimulation 1040 1000 1000000 0) = some w0
      ∧ (RandomApp.StopApplication w0).app.m_running = false
      ∧ RandomApp.StartApplication id (RandomApp.StopApplication w0) = some w1
      ∧ w1.app.m_running = true
      ∧ w1.sent = (RandomApp.StopApplication w0).sent ++ [(RandomApp.StopApplication w0).now]
      ∧ EventId.IsPending w1.events w1.app.m_sendEvent = true := by
  have h0 := StartApplication_idle id 1040 1000 1000000 0 (by decide) (by decide) (by decide)
  have hf := StopApplication_fields (sentState (txInterval id 1040 1000000) 1040 1000 1000000 0 1)
  have hsock : (RandomApp.StopApplication
      (sentState (txInterval id 1040 1000000) 1040 1000 1000000 0 1)).app.m_socket ≠ none := by
    rw [hf.2.2.2.2.2.2.2.2 (by simp [sentState])]
    simp
  have hrate : 0 < (RandomApp.StopApplication
      (sentState (txInterval id 1040 1000000) 1040 1000 1000000 0 1)).app.m_dataRate := by
    rw [hf.2.2.2.2.2.2.2.1]; simp [sentState]
  obtain ⟨w1, e1, e2, _, e4, e5, _⟩ := StartApplication_any id _ hsock hrate
  refine ⟨_, w1, h0, hf.1, e1, e2, e4, (e5 ?_).1⟩
  rw [hf.2.2.2.2.2.2.1]
  simp [sentState]

/-- C15 (amended): after `StopApplication` the generator is not running, a further
`StopApplication` changes nothing, and no number of passes of the event loop makes it running
again or schedules a send. `StartApplication` is not guarded: on a stopped generator with a
socket and a positive rate it succeeds, sets `m_running`, resets `m_packetsSent` and sends one
packet at once, and with a budget above 1 it leaves a send event pending. -/
theorem stopped_until_started_again (Seconds : ℚ → ℚ) (w : Simulation) :
    (RandomApp.StopApplication w).app.m_running = false
      ∧ RandomApp.StopApplication (RandomApp.StopApplication w) = RandomApp.StopApplication w
      ∧ (∀ m w', Simulator.iterate Seconds m (RandomApp.StopApplication w) = some w' →
          w'.app.m_running = false ∧ w'.uid = (RandomApp.StopApplication w).uid)
      ∧ (w.app.m_socket ≠ none → 0 < w.app.m_dataRate →
          ∃ w1, RandomApp.StartApplication Seconds (RandomApp.StopApplication w) = some w1
            ∧ w1.app.m_running = true ∧ w1.app.m_packetsSent = 1
            ∧ w1.sent = (RandomApp.StopApplication w).sent ++ [(RandomApp.StopApplication w).now]
            ∧ (1 < w.app.m_nPackets →
                EventId.IsPending w1.events w1.app.m_sendEvent = true)) := by
  have hf := StopApplication_fields w
  refine ⟨hf.1, StopApplication_idem w, ?_, ?_⟩
  · intro m w' h
    exact iterate_of_not_running Seconds m _ w' hf.1 h
  · intro hs hr
    have hsock : (RandomApp.StopApplication w).app.m_socket ≠ none := by
      rw [hf.2.2.2.2.2.2.2.2 hs]; simp
    have hrate : 0 < (RandomApp.StopApplication w).app.m_dataRate := by
      rw [hf.2.2.2.2.2.2.2.1]; exact hr
    obtain ⟨w1, e1, e2, e3, e4, e5, _⟩ := StartApplication_any Seconds _ hsock hrate
    refine ⟨w1, e1, e2, e3, e4, fun hN => (e5 ?_).1⟩
    rw [hf.2.2.2.2.2.2.1]
    exact hN

/-- C15 (witness): the idle generator of `main`, stopped and then started. -/
theorem stopped_until_started_again_witness :
    (∀ m w', Simulator.iterate id m
        (RandomApp.StopApplication (idleSimulation 1040 1000 1000000 0)) = some w' →
        w'.app.m_running = false)
      ∧ ∃ w1, RandomApp.StartApplication id
          (RandomApp.StopApplication (idleSimulation 1040 1000 1000000 0)) = some w1
        ∧ w1.app.m_running = true ∧ w1.app.m_packetsSent = 1
        ∧ EventId.IsPending w1.events w1.app.m_sendEvent = true := by
  have h := stopped_until_started_again id (idleSimulation 1040 1000 1000000 0)
  obtain ⟨w1, e1, e2, e3, _, e5⟩ := h.2.2.2 (by decide) (by decide)
  exact ⟨fun m w' hm => (h.2.2.1 m w' hm).1, w1, e1, e2, e3, e5 (by decide)⟩

/-! ## Layout of the report -/

theorem foldl_report_map {β : Type} (f : ReportAcc → FlowEntry → ReportAcc)
    (g : FlowBlock → β) (h : FlowEntry → β)
    (hf : ∀ acc i, ∃ b : FlowBlock, (f acc i).outFile = acc.outFile ++ [b] ∧ g b = h i) :
    ∀ (stats : List FlowEntry) (acc : ReportAcc),
      (stats.foldl f acc).outFile.map g = acc.outFile.map g ++ stats.map h := by
  intro stats
  induction stats with
  | nil => intro acc; simp
  | cons i rest ih =>
    intro acc
    obtain ⟨b, hb, hg⟩ := hf acc i
    simp only [List.foldl_cons, List.map_cons]
    rw [ih (f acc i), hb]
    simp [hg]

theorem simReportFlow_header (appDuration : Nat) (acc : ReportAcc) (i : FlowEntry) :
    ∃ b : FlowBlock, (simReportFlow appDuration acc i).outFile = acc.outFile ++ [b]
      ∧ (b.flowId, b.t, b.proto) = (i.flowId, i.t, protoLabel i.t.protocol) := by
  unfold simReportFlow
  by_cases hrx : 0 < i.second.rxPackets
  · rw [if_pos hrx]; exact ⟨_, rfl, rfl⟩
  · rw [if_neg hrx]; exact ⟨_, rfl, rfl⟩

theorem bwpReportFlow_header (simTime udpAppStartTime : ℚ) (acc : ReportAcc) (i : FlowEntry) :
    ∃ b : FlowBlock, (bwpReportFlow simTime udpAppStartTime acc i).outFile = acc.outFile ++ [b]
      ∧ (b.flowId, b.t, b.proto) = (i.flowId, i.t, protoLabel i.t.protocol) := by
  unfold bwpReportFlow
  by_cases hrx : 0 < i.second.rxPackets
  · rw [if_pos hrx]; exact ⟨_, rfl, rfl⟩
  · rw [if_neg hrx]; exact ⟨_, rfl, rfl⟩

theorem simReport_headers (appDuration : Nat) (stats : List FlowEntry) :
    ∃ r : Report, simReportPhase true appDuration stats = (0, some r)
      ∧ r.blocks.map (fun b => (b.flowId, b.t, b.proto))
          = stats.map (fun i => (i.flowId, i.t, protoLabel i.t.protocol)) := by
  refine ⟨_, rfl, ?_⟩
  have h := foldl_report_map (simReportFlow appDuration) _ _
    (simReportFlow_header appDuration) stats ⟨some 0, some 0, []⟩
  simpa using h

theorem bwpReport_headers (simTime udpAppStartTime : ℚ) (stats : List FlowEntry) :
    ∃ r : Report, bwpReportPhase true simTime udpAppStartTime stats = (0, some r)
      ∧ r.blocks.map (fun b => (b.flowId, b.t, b.proto))
          = stats.map (fun i => (i.flowId, i.t, protoLabel i.t.protocol)) := by
  refine ⟨_, rfl, ?_⟩
  have h := foldl_report_map (bwpReportFlow simTime udpAppStartTime) _ _
    (bwpReportFlow_header simTime udpAppStartTime) stats ⟨some 0, some 0, []⟩
  simpa using h

theorem report_layout_of_headers (r : Report) (stats : List FlowEntry)
    (hmap : stats.Pairwise (fun a b => a.flowId < b.flowId))
    (hr : r.blocks.map (fun b => (b.flowId, b.t, b.proto))
      = stats.map (fun i => (i.flowId, i.t, protoLabel i.t.protocol))) :
    r.blocks.length = stats.length
      ∧ r.blocks.map FlowBlock.flowId = stats.map FlowEntry.flowId
      ∧ (r.blocks.map FlowBlock.flowId).Pairwise (· < ·)
      ∧ (r.blocks.map FlowBlock.flowId).Nodup
      ∧ r.lines.map Prod.fst = stats.flatMap (fun _ => blockLabels) ++ summaryLabels := by
  have hid : r.blocks.map FlowBlock.flowId = stats.map FlowEntry.flowId := by
    have := congrArg (List.map Prod.fst) hr
    simpa [List.map_map, Function.comp_def] using this
  have hlen : r.blocks.length = stats.length := by
    have := congrArg List.length hid
    simpa using this
  have hpw : (stats.map FlowEntry.flowId).Pairwise (· < ·) := by
    rw [List.pairwise_map]; exact hmap
  have hlab : ∀ (bs : List FlowBlock) (n : Nat), bs.length = n →
      (bs.flatMap FlowBlock.lines).map Prod.fst
        = (List.replicate n ()).flatMap (fun _ => blockLabels) := by
    intro bs
    induction bs with
    | nil => intro n hn; subst hn; rfl
    | cons b rest ih =>
      intro n hn
      subst hn
      simp only [List.flatMap_cons, List.map_append, List.length_cons, List.replicate_succ]
      rw [ih rest.length rfl]
      rfl
  have hrep : ∀ l : List FlowEntry, l.flatMap (fun _ => blockLabels)
      = (List.replicate l.length ()).flatMap (fun _ => blockLabels) := by
    intro l
    induction l with
    | nil => rfl
    | cons x rest ih =>
      simp only [List.flatMap_cons, List.length_cons, List.replicate_succ]
      rw [ih]
  refine ⟨hlen, hid, by rw [hid]; exact hpw, by rw [hid]; exact hpw.imp (fun h => ne_of_lt h), ?_⟩
  unfold Report.lines
  rw [List.map_append, hlab r.blocks stats.length hlen, hrep stats]
  rfl

/-- C21: for every flow table (a map: flow ids strictly increasing) with `n` flows, the report
of either scenario has exactly `n` per-flow blocks, the `k`-th for the `k`-th flow, so each flow
once and in strictly increasing flow-id order; its lines are, block after block, the header and
Tx Packets, Tx Bytes, TxOffered, Rx Bytes, Throughput, Mean delay, Mean jitter, Rx Packets, and
after the last block the one summary: mean flow throughput, then mean flow delay. -/
theorem report_layout (appDuration : Nat) (simTime udpAppStartTime : ℚ) (stats : List FlowEntry)
    (hmap : stats.Pairwise (fun a b => a.flowId < b.flowId)) :
    ∃ r r' : Report, simReportPhase true appDuration stats = (0, some r)
      ∧ bwpReportPhase true simTime udpAppStartTime stats = (0, some r')
      ∧ (r.blocks.length = stats.length
          ∧ r.blocks.map FlowBlock.flowId = stats.map FlowEntry.flowId
          ∧ (r.blocks.map FlowBlock.flowId).Pairwise (· < ·)
          ∧ (r.blocks.map FlowBlock.flowId).Nodup
          ∧ r.lines.map Prod.fst = stats.flatMap (fun _ => blockLabels) ++ summaryLabels)
      ∧ (r'.blocks.length = stats.length
          ∧ r'.blocks.map FlowBlock.flowId = stats.map FlowEntry.flowId
          ∧ (r'.blocks.map FlowBlock.flowId).Pairwise (· < ·)
          ∧ (r'.blocks.map FlowBlock.flowId).Nodup
          ∧ r'.lines.map Prod.fst = stats.flatMap (fun _ => blockLabels) ++ summaryLabels) := by
  obtain ⟨r, hr, hh⟩ := simReport_headers appDuration stats
  obtain ⟨r', hr', hh'⟩ := bwpReport_headers simTime udpAppStartTime stats
  exact ⟨r, r', hr, hr', report_layout_of_headers r stats hmap hh,
    report_layout_of_headers r' stats hmap hh'⟩

/-- C21 (witness): the three sample flows, with ids 1, 2, 3. -/
theorem report_layout_witness :
    ∃ r : Report, simReportPhase true 10000 [sampleFlow1, sampleFlow2, sampleFlow3] = (0, some r)
      ∧ r.blocks.length = 3
      ∧ r.blocks.map FlowBlock.flowId = [1, 2, 3]
      ∧ r.lines.map Prod.fst = blockLabels ++ blockLabels ++ blockLabels ++ summaryLabels := by
  obtain ⟨r, _, hr, _, h, _⟩ := report_layout 10000 1 (1 / 10)
    [sampleFlow1, sampleFlow2, sampleFlow3] (by decide)
  refine ⟨r, hr, h.1, h.2.1, ?_⟩
  rw [h.2.2.2.2]
  simp

/-- C25: for every protocol number `p` (the 8-bit ones included), the label of the flow header
is `TCP` for 6, `UDP` for 17, and otherwise the decimal digits of `p`; and in the report of
either scenario the header of every block carries the label of its flow's protocol number. -/
theorem protoLabel_cases (p : Nat) (appDuration : Nat) (simTime udpAppStartTime : ℚ)
    (stats : List FlowEntry) :
    (p = 6 → protoLabel p = "TCP")
      ∧ (p = 17 → protoLabel p = "UDP")
      ∧ (p ≠ 6 → p ≠ 17 → protoLabel p = String.mk (Nat.toDigits 10 p))
      ∧ ∃ r r' : Report, simReportPhase true appDuration stats = (0, some r)
          ∧ bwpReportPhase true simTime udpAppStartTime stats = (0, some r')
          ∧ r.blocks.map FlowBlock.proto = stats.map (fun i => protoLabel i.t.protocol)
          ∧ r'.blocks.map FlowBlock.proto = stats.map (fun i => protoLabel i.t.protocol) := by
  refine ⟨?_, ?_, ?_, ?_⟩
  · intro h; subst h; rfl
  · intro h; subst h; rfl
  · intro h6 h17
    simp only [protoLabel, h6, h17, if_false]
    rfl
  · obtain ⟨r, hr, hh⟩ := simReport_headers appDuration stats
    obtain ⟨r', hr', hh'⟩ := bwpReport_headers simTime udpAppStartTime stats
    refine ⟨r, r', hr, hr', ?_, ?_⟩
    · have := congrArg (List.map (fun x : Nat × FiveTuple × String => x.2.2)) hh
      simpa [List.map_map, Function.comp_def] using this
    · have := congrArg (List.map (fun x : Nat × FiveTuple × String => x.2.2)) hh'
      simpa [List.map_map, Function.comp_def] using this

/-- C25 (witness): the protocol numbers 6, 17, 1 and 255, and the three sample flows (two over
TCP, one over UDP). -/
theorem protoLabel_cases_witness :
    protoLabel 6 = "TCP" ∧ protoLabel 17 = "UDP" ∧ protoLabel 1 = "1" ∧ protoLabel 255 = "255"
      ∧ ∃ r : Report,
          simReportPhase true 10000 [sampleFlow1, sampleFlow2, sampleFlow3] = (0, some r)
          ∧ r.blocks.map FlowBlock.proto = ["TCP", "TCP", "UDP"] := by
  have h6 := protoLabel_cases 6 10000 1 (1 / 10) [sampleFlow1, sampleFlow2, sampleFlow3]
  have h17 := protoLabel_cases 17 10000 1 (1 / 10) [sampleFlow1, sampleFlow2, sampleFlow3]
  have h1 := protoLabel_cases 1 10000 1 (1 / 10) [sampleFlow1, sampleFlow2, sampleFlow3]
  have h255 := protoLabel_cases 255 10000 1 (1 / 10) [sampleFlow1, sampleFlow2, sampleFlow3]
  obtain ⟨r, _, hr, _, hp, _⟩ := h6.2.2.2
  refine ⟨h6.1 rfl, h17.2.1 rfl, ?_, ?_, r, hr, ?_⟩
  · rw [h1.2.2.1 (by decide) (by decide)]; decide
  · rw [h255.2.2.1 (by decide) (by decide)]; decide
  · rw [hp]; decide

theorem bwpReportFlow_eq_simReportFlow (appDuration : Nat) (simTime udpAppStartTime : ℚ)
    (hd : simTime - udpAppStartTime = (appDuration : ℚ) / 1000) :
    bwpReportFlow simTime udpAppStartTime = simReportFlow appDuration := by
  funext acc i
  unfold bwpReportFlow simReportFlow
  rw [hd]

/-- C26: for every flow table, every outcome of opening the file and equal active durations
(`simTime - udpAppStartTime` in bwp-network-slicing.cc, `appDuration / 1000` in
sim-network-slicing.cc), the reporting phases of the two scenarios give the same exit status and
the same report: the same blocks with the same values and the same two means. -/
theorem reports_equivalent (isOpen : Bool) (appDuration : Nat) (simTime udpAppStartTime : ℚ)
    (stats : List FlowEntry)
    (hd : simTime - udpAppStartTime = (appDuration : ℚ) / 1000) :
    bwpReportPhase isOpen simTime udpAppStartTime stats
        = simReportPhase isOpen appDuration stats
      ∧ (bwpReportPhase isOpen simTime udpAppStartTime stats).2.map Report.lines
        = (simReportPhase isOpen appDuration stats).2.map Report.lines := by
  have h : bwpReportPhase isOpen simTime udpAppStartTime stats
      = simReportPhase isOpen appDuration stats := by
    unfold bwpReportPhase simReportPhase
    rw [bwpReportFlow_eq_simReportFlow appDuration simTime udpAppStartTime hd]
  exact ⟨h, by rw [h]⟩

/-- C26 (witness): the defaults of bwp-network-slicing.cc (`simTime = 1`,
`udpAppStartTime = 0.1`) against `appDuration = 900` ms, on the three sample flows. -/
theorem reports_equivalent_witness :
    bwpReportPhase true 1 (1 / 10) [sampleFlow1, sampleFlow2, sampleFlow3]
        = simReportPhase true 900 [sampleFlow1, sampleFlow2, sampleFlow3]
      ∧ bwpReportPhase false 1 (1 / 10) [sampleFlow1, sampleFlow2, sampleFlow3]
        = simReportPhase false 900 [sampleFlow1, sampleFlow2, sampleFlow3] :=
  ⟨(reports_equivalent true 900 1 (1 / 10) [sampleFlow1, sampleFlow2, sampleFlow3]
      (by norm_num)).1,
    (reports_equivalent false 900 1 (1 / 10) [sampleFlow1, sampleFlow2, sampleFlow3]
      (by norm_num)).1⟩

/-! ## bwp-network-slicing.cc: classes and ports -/

/-- C22 (failing input): with the default quotas (2, 3, 4) of bwp-network-slicing.cc the
requests for the devices of slices 0 and 1 carry the classes mapped to segments 0 and 1, but
every request for a device of slice 2 (devices 5 to 8) carries `NGBR_VIDEO_TCP_DEFAULT`, a class
that the BWP-manager configuration does not map at all, and the class `GBR_V2X` that it maps to
segment 2 is carried by no request. -/
theorem bwp_third_slice_class_unmapped :
    ∃ reqs, bwpMain 2 3 4 = some reqs
      ∧ (∀ r ∈ reqs, r.ueDevice < 2 → bwpBwpManager r.bearer.qci = some 0)
      ∧ (∀ r ∈ reqs, 2 ≤ r.ueDevice → r.ueDevice < 5 → bwpBwpManager r.bearer.qci = some 1)
      ∧ (∃ r ∈ reqs, r.ueDevice = 5)
      ∧ (∀ r ∈ reqs, 5 ≤ r.ueDevice →
          r.bearer.qci = .NGBR_VIDEO_TCP_DEFAULT ∧ bwpBwpManager r.bearer.qci = none)
      ∧ (∀ r ∈ reqs, r.bearer.qci ≠ .GBR_V2X)
      ∧ bwpBwpManager .GBR_V2X = some 2 := by
  refine ⟨bwpRequests 2 3 4, bwpMain_eq 2 3 4, ?_, ?_, ?_, ?_, ?_, rfl⟩ <;> decide

theorem forLoop_bwpLoopBody (N slice : Nat) (qci : Qci) :
    ∀ (count u : Nat) (s : BwpApps), u + count ≤ N → s.dlPort = bwpPort u →
      forLoop (bwpLoopBody (NodeContainer.Create N) (InstallUeDevice (NodeContainer.Create N))
          slice qci) count u s
        = some { dlPort := bwpPort (u + count)
                 serverApps := s.serverApps
                   ++ (List.range' u count).map (fun v => (v, bwpPort v))
                 clientApps := s.clientApps
                   ++ (List.range' u count).map (fun v => (slice, v, bwpPort v))
                 activated := s.activated ++ (List.range' u count).map (bwpRequest qci) } := by
  intro count
  induction count with
  | zero =>
    intro u s _ hp
    cases s
    simp only at hp
    simp [forLoop, hp]
  | succ count ih =>
    intro u s hu hp
    have hul : u < (List.range N).length := by simp; omega
    unfold forLoop
    simp only [bwpLoopBody, InstallUeDevice, NodeContainer.Create, List.get?_eq_getElem?,
      List.getElem?_eq_getElem hul, List.getElem_range]
    have hnext : (s.dlPort + 1) % UINT16_RANGE = bwpPort (u + 1) := by
      rw [hp]; unfold bwpPort UINT16_RANGE; omega
    have := ih (u + 1) ⟨(s.dlPort + 1) % UINT16_RANGE, s.serverApps ++ [(u, s.dlPort)],
      s.clientApps ++ [(slice, u, s.dlPort)],
      s.activated ++ [⟨u, ⟨qci⟩, [⟨s.dlPort, s.dlPort⟩]⟩]⟩ (by omega) hnext
    simp only [InstallUeDevice, NodeContainer.Create] at this
    rw [this]
    have e : u + 1 + count = u + (count + 1) := by omega
    simp only [List.range'_succ, List.map_cons, bwpRequest, bwpPort, hp, e, List.append_assoc,
      List.singleton_append]

theorem bwpConfigure_eq (q0 q1 q2 : Nat) :
    bwpConfigure q0 q1 q2
      = some { dlPort := bwpPort (q0 + q1 + q2)
               serverApps := (List.range' 0 (q0 + q1 + q2)).map (fun v => (v, bwpPort v))
               clientApps := (List.range' 0 q0).map (fun v => (0, v, bwpPort v))
                 ++ (List.range' q0 q1).map (fun v => (1, v, bwpPort v))
                 ++ (List.range' (q0 + q1) q2).map (fun v => (2, v, bwpPort v))
               activated := bwpRequests q0 q1 q2 } := by
  unfold bwpConfigure
  simp only
  rw [forLoop_bwpLoopBody (q0 + q1 + q2) 0 _ q0 0 ⟨1234, [], [], []⟩ (by omega) (by decide)]
  simp only
  rw [forLoop_bwpLoopBody (q0 + q1 + q2) 1 _ (q0 + q1 - q0) q0 _ (by omega) (by simp)]
  simp only
  rw [forLoop_bwpLoopBody (q0 + q1 + q2) 2 _ _ (q0 + q1) _
    (by simp [NodeContainer.Create]) (by simp)]
  have a1 : q0 + q1 - q0 = q1 := by omega
  have a2 : (NodeContainer.Create (q0 + q1 + q2)).length - (q0 + q1) = q2 := by
    simp [NodeContainer.Create]
  simp only [a1, a2, List.nil_append, bwpRequests, range'_three, List.map_append, Nat.zero_add]

/-- C23 (counterexample): with quotas (64302, 0, 0), for which 1234 + (q0+q1+q2) = 65536, the
counter `dlPort` is 0 after the three loops, not 65536. -/
theorem bwp_dlPort_wraps_at_bound :
    1234 + (64302 + 0 + 0) ≤ 65536
      ∧ ∃ st, bwpConfigure 64302 0 0 = some st ∧ st.dlPort = 0
          ∧ st.dlPort ≠ 1234 + (64302 + 0 + 0) := by
  refine ⟨by decide, _, bwpConfigure_eq 64302 0 0, ?_, ?_⟩ <;> decide

/-- C23 (amended): for every quota triple with `1234 + (q0+q1+q2) ≤ 65536`, the device at flat
index `k` gets a packet sink on port `1234 + k`, a client addressed to it on port `1234 + k`
and an admission request whose one filter has `localPortStart = localPortEnd = 1234 + k`; after
the three loops `dlPort` is `(1234 + q0 + q1 + q2) mod 65536`: `1234 + q0 + q1 + q2` below
65536, and 0 when the sum is 65536. -/
theorem bwp_ports_by_index (q0 q1 q2 : Nat) (hK : 1234 + (q0 + q1 + q2) ≤ UINT16_RANGE) :
    ∃ st, bwpConfigure q0 q1 q2 = some st ∧ bwpMain q0 q1 q2 = some st.activated
      ∧ st.serverApps = (List.range' 0 (q0 + q1 + q2)).map (fun k => (k, 1234 + k))
      ∧ st.clientApps.map (fun c => (c.2.1, c.2.2))
          = (List.range' 0 (q0 + q1 + q2)).map (fun k => (k, 1234 + k))
      ∧ st.activated.map (fun r => (r.ueDevice, r.tft))
          = (List.range' 0 (q0 + q1 + q2)).map
              (fun k => (k, [(⟨1234 + k, 1234 + k⟩ : PacketFilter)]))
      ∧ st.dlPort = (1234 + (q0 + q1 + q2)) % UINT16_RANGE
      ∧ (1234 + (q0 + q1 + q2) < UINT16_RANGE → st.dlPort = 1234 + (q0 + q1 + q2))
      ∧ (1234 + (q0 + q1 + q2) = UINT16_RANGE → st.dlPort = 0) := by
  have hU : UINT16_RANGE = 65536 := rfl
  have hport : ∀ k ∈ List.range' 0 (q0 + q1 + q2), bwpPort k = 1234 + k := by
    intro k hk
    have := (List.mem_range'_1.mp hk).2
    unfold bwpPort
    exact Nat.mod_eq_of_lt (by omega)
  have hpair : (List.range' 0 (q0 + q1 + q2)).map (fun v => (v, bwpPort v))
      = (List.range' 0 (q0 + q1 + q2)).map (fun k => (k, 1234 + k)) :=
    List.map_congr_left (fun k hk => by
      show (k, bwpPort k) = (k, 1234 + k)
      rw [hport k hk])
  refine ⟨_, bwpConfigure_eq q0 q1 q2, bwpMain_eq q0 q1 q2, hpair, ?_, ?_, rfl, ?_, ?_⟩
  · simp only [List.map_append, List.map_map, Function.comp_def]
    rw [← List.map_append, ← List.map_append, ← range'_three]
    exact hpair
  · simp only [bwpRequests, List.map_append, List.map_map, Function.comp_def, bwpRequest]
    rw [← List.map_append, ← List.map_append, ← range'_three]
    exact List.map_congr_left (fun k hk => by
      have := hport k hk
      unfold bwpPort at this
      show (k, [(⟨(1234 + k) % UINT16_RANGE, (1234 + k) % UINT16_RANGE⟩ : PacketFilter)])
        = (k, [(⟨1234 + k, 1234 + k⟩ : PacketFilter)])
      rw [this])
  · intro h
    exact Nat.mod_eq_of_lt h
  · intro h
    show bwpPort (q0 + q1 + q2) = 0
    unfold bwpPort
    rw [h]
    exact Nat.mod_self _

/-- C23 (witness): the default quotas (2, 3, 4): ports 1234 to 1242, counter 1243 at the
end. -/
theorem bwp_ports_by_index_witness :
    ∃ st, bwpConfigure 2 3 4 = some st
      ∧ st.serverApps = (List.range' 0 9).map (fun k => (k, 1234 + k))
      ∧ st.activated.map (fun r => (r.ueDevice, r.tft))
          = (List.range' 0 9).map (fun k => (k, [(⟨1234 + k, 1234 + k⟩ : PacketFilter)]))
      ∧ st.dlPort = 1243 := by
  obtain ⟨st, h1, _, h3, _, h5, _, h7, _⟩ := bwp_ports_by_index 2 3 4 (by decide)
  exact ⟨st, h1, h3, h5, h7 (by decide)⟩

/-! ## RandomApp: start, budget, interval, invariant -/

/-- C24: for every generator state with a socket (whatever `m_packetsSent` holds, whatever the
budget `N`; a positive rate where a send has to be scheduled), `StartApplication` succeeds, sets
`m_running`, resets the count and sends one packet at the current time without moving the
clock, so that `m_packetsSent = 1` right after; and a next send is scheduled, after the interval
of `ScheduleTx`, exactly when `1 < N`. -/
theorem StartApplication_sends_one (Seconds : ℚ → ℚ) (w : Simulation)
    (hs : w.app.m_socket ≠ none) (hr : 1 < w.app.m_nPackets → 0 < w.app.m_dataRate) :
    ∃ w1, RandomApp.StartApplication Seconds w = some w1
      ∧ w1.app.m_running = true ∧ w1.app.m_packetsSent = 1
      ∧ w1.sent = w.sent ++ [w.now] ∧ w1.now = w.now
      ∧ (1 < w.app.m_nPackets →
          w1.events = insertEvent
            ⟨w.now + txInterval Seconds w.app.m_packetSize w.app.m_dataRate, w.uid, false⟩
            w.events
          ∧ w1.app.m_sendEvent = some w.uid
          ∧ EventId.IsPending w1.events w1.app.m_sendEvent = true)
      ∧ (¬ 1 < w.app.m_nPackets →
          w1.events = w.events ∧ w1.app.m_sendEvent = w.app.m_sendEvent)
      ∧ (w1.uid = w.uid + 1 ↔ 1 < w.app.m_nPackets) := by
  have hU : UINT32_RANGE = 4294967296 := rfl
  cases hsock : w.app.m_socket with
  | none => exact absurd hsock hs
  | some sock =>
    by_cases h1 : 1 < w.app.m_nPackets
    · have hr0 : w.app.m_dataRate ≠ 0 := by have := hr h1; omega
      refine ⟨{ app := { w.app with m_socket := some .connected, m_sendEvent := some w.uid
                                    m_running := true, m_packetsSent := 1 }
                now := w.now
                events := insertEvent
                  ⟨w.now + txInterval Seconds w.app.m_packetSize w.app.m_dataRate, w.uid, false⟩
                  w.events
                uid := w.uid + 1
                sent := w.sent ++ [w.now] }, ?_, rfl, rfl, rfl, rfl, fun _ => ⟨rfl, rfl, ?_⟩,
        fun h => absurd h1 h, ⟨fun _ => h1, fun _ => rfl⟩⟩
      · simp only [RandomApp.StartApplication, hsock, RandomApp.SendPacket,
          RandomApp.ScheduleTx, Simulator.Schedule, hU, Nat.zero_add, Nat.one_mod, h1, if_true,
          hr0, if_false, txInterval]
      · simp only [EventId.IsPending, List.any_eq_true]
        exact ⟨_, mem_insertEvent _ _, by simp⟩
    · refine ⟨{ app := { w.app with m_socket := some .connected, m_running := true
                                    m_packetsSent := 1 }
                now := w.now, events := w.events, uid := w.uid
                sent := w.sent ++ [w.now] }, ?_, rfl, rfl, rfl, rfl, fun h => absurd h h1,
        fun _ => ⟨rfl, rfl⟩, ⟨fun h => absurd h (by simp), fun h => absurd h h1⟩⟩
      simp only [RandomApp.StartApplication, hsock, RandomApp.SendPacket, hU, Nat.zero_add,
        Nat.one_mod, h1, if_false]

/-- C24 (witness): the generator of `main` holding a count of 7 from before, and the same
generator with budget 1. -/
theorem StartApplication_sends_one_witness :
    (∃ w1, RandomApp.StartApplication id
        { idleSimulation 1040 1000 1000000 0 with
          app := { (idleSimulation 1040 1000 1000000 0).app with m_packetsSent := 7 } } = some w1
      ∧ w1.app.m_running = true ∧ w1.app.m_packetsSent = 1 ∧ w1.sent = [0] ∧ w1.uid = 1)
    ∧ (∃ w1, RandomApp.StartApplication id (idleSimulation 1040 1 1000000 0) = some w1
      ∧ w1.app.m_packetsSent = 1 ∧ w1.sent = [0] ∧ w1.events = [] ∧ w1.uid ≠ 1) := by
  constructor
  · obtain ⟨w1, h1, h2, h3, h4, _, _, _, h8⟩ := StartApplication_sends_one id
      { idleSimulation 1040 1000 1000000 0 with
        app := { (idleSimulation 1040 1000 1000000 0).app with m_packetsSent := 7 } }
      (by decide) (fun _ => by decide)
    exact ⟨w1, h1, h2, h3, h4, h8.mpr (by decide)⟩
  · obtain ⟨w1, h1, _, h3, h4, _, _, h7, h8⟩ := StartApplication_sends_one id
      (idleSimulation 1040 1 1000000 0) (by decide) (fun h => absurd h (by decide))
    exact ⟨w1, h1, h3, h4, (h7 (by decide)).1, fun h => absurd (h8.mp h) (by decide)⟩

theorem StartApplication_small_budget (Seconds : ℚ → ℚ) (s N r : Nat) (t0 : ℚ)
    (hN : N ≤ 1) :
    RandomApp.StartApplication Seconds (idleSimulation s N r t0)
      = some (singleSendState s N r t0) := by
  have hU : UINT32_RANGE = 4294967296 := rfl
  have h1 : ¬ 1 < N := by omega
  simp [RandomApp.StartApplication, idleSimulation, RandomApp.Setup, RandomApp.construct,
    RandomApp.SendPacket, singleSendState, hU, h1]

theorem Run_singleSendState (Seconds : ℚ → ℚ) (s N r : Nat) (t0 : ℚ) (fuel : Nat)
    (hf : 1 ≤ fuel) :
    Simulator.Run Seconds fuel (singleSendState s N r t0) = some (singleSendState s N r t0) := by
  cases fuel with
  | zero => omega
  | succ fuel => rfl

/-- C27: with packet budget 0 (whatever the rate) `StartApplication` on the idle generator sends
one packet: afterwards `m_packetsSent = 1`, above the budget, no send is scheduled, and the run
ends there with one packet sent in total, the same record of sends as with budget 1; and for
every budget `N` (a `uint32_t`, positive rate) the run of the generator, never stopped, ends
with `max N 1` packets sent. -/
theorem RandomApp_budget_zero (Seconds : ℚ → ℚ) (s r : Nat) (t0 : ℚ) :
    (∃ w0, RandomApp.StartApplication Seconds (idleSimulation s 0 r t0) = some w0
        ∧ w0.app.m_packetsSent = 1 ∧ w0.app.m_nPackets = 0 ∧ w0.events = [] ∧ w0.uid = 0
        ∧ EventId.IsPending w0.events w0.app.m_sendEvent = false
        ∧ (∀ fuel, 1 ≤ fuel → Simulator.Run Seconds fuel w0 = some w0)
        ∧ w0.sent = [t0]
        ∧ ∃ w1, RandomApp.StartApplication Seconds (idleSimulation s 1 r t0) = some w1
            ∧ (∀ fuel, 1 ≤ fuel → Simulator.Run Seconds fuel w1 = some w1)
            ∧ w1.sent = w0.sent)
      ∧ ∀ N, N < UINT32_RANGE → 0 < r →
          ∃ w0 w, RandomApp.StartApplication Seconds (idleSimulation s N r t0) = some w0
            ∧ (∀ fuel, max N 1 ≤ fuel → Simulator.Run Seconds fuel w0 = some w)
            ∧ w.events = [] ∧ w.sent.length = max N 1 := by
  refine ⟨⟨singleSendState s 0 r t0, StartApplication_small_budget Seconds s 0 r t0 (by omega),
    rfl, rfl, rfl, rfl, rfl, fun fuel hf => Run_singleSendState Seconds s 0 r t0 fuel hf, rfl,
    singleSendState s 1 r t0, StartApplication_small_budget Seconds s 1 r t0 (by omega),
    fun fuel hf => Run_singleSendState Seconds s 1 r t0 fuel hf, rfl⟩, ?_⟩
  intro N hN32 hr
  by_cases hN : 1 ≤ N
  · refine ⟨sentState (txInterval Seconds s r) s N r t0 1,
      sentState (txInterval Seconds s r) s N r t0 N,
      StartApplication_idle Seconds s N r t0 hN hN32 hr, ?_, ?_, ?_⟩
    · intro fuel hf
      exact Run_sentState Seconds s N r t0 hN32 hr fuel 1 (Nat.le_refl 1) hN (by omega)
    · exact sentState_events_of_ge _ s N r t0 N (Nat.lt_irrefl N)
    · simp [sentState, Nat.max_eq_left hN]
  · have hN0 : N = 0 := by omega
    subst hN0
    exact ⟨singleSendState s 0 r t0, singleSendState s 0 r t0,
      StartApplication_small_budget Seconds s 0 r t0 (by omega),
      fun fuel hf => Run_singleSendState Seconds s 0 r t0 fuel (by simpa using hf), rfl, rfl⟩

/-- C27 (witness): budgets 0 and 1000 at packet size 1040 and 1 Mbps. -/
theorem RandomApp_budget_zero_witness :
    (∃ w0 w, RandomApp.StartApplication id (idleSimulation 1040 0 1000000 0) = some w0
        ∧ (∀ fuel, 1 ≤ fuel → Simulator.Run id fuel w0 = some w) ∧ w.sent.length = 1)
      ∧ ∃ w0 w, RandomApp.StartApplication id (idleSimulation 1040 1000 1000000 0) = some w0
        ∧ (∀ fuel, 1000 ≤ fuel → Simulator.Run id fuel w0 = some w) ∧ w.sent.length = 1000 := by
  have h := (RandomApp_budget_zero id 1040 1000000 0).2
  obtain ⟨a0, a, ha0, ha1, _, ha3⟩ := h 0 (by decide) (by decide)
  obtain ⟨b0, b, hb0, hb1, _, hb3⟩ := h 1000 (by decide) (by decide)
  exact ⟨⟨a0, a, ha0, ha1, ha3⟩, ⟨b0, b, hb0, hb1, hb3⟩⟩

/-- C28: in `ScheduleTx` on a running generator with a 32-bit packet size `s` and a rate
`r > 0`, the event is scheduled after the interval `Seconds (((s * 8) mod 2^32) / r)`; that
quotient equals `s * 8 / r` exactly when `s < 2^29`, and from `s = 2^29` on it is strictly
smaller. -/
theorem ScheduleTx_interval (Seconds : ℚ → ℚ) (w : Simulation)
    (hrun : w.app.m_running = true) (hr : 0 < w.app.m_dataRate) :
    ∃ w1, RandomApp.ScheduleTx Seconds w = some w1
      ∧ w1.events = insertEvent
          ⟨w.now + Seconds ((((w.app.m_packetSize * 8) % UINT32_RANGE : Nat) : ℚ)
            / (w.app.m_dataRate : ℚ)), w.uid, false⟩ w.events
      ∧ (((((w.app.m_packetSize * 8) % UINT32_RANGE : Nat) : ℚ) / (w.app.m_dataRate : ℚ)
            = ((w.app.m_packetSize : ℚ) * 8) / (w.app.m_dataRate : ℚ))
          ↔ w.app.m_packetSize < 536870912)
      ∧ (536870912 ≤ w.app.m_packetSize →
          (((w.app.m_packetSize * 8) % UINT32_RANGE : Nat) : ℚ) / (w.app.m_dataRate : ℚ)
            < ((w.app.m_packetSize : ℚ) * 8) / (w.app.m_dataRate : ℚ)) := by
  have hU : UINT32_RANGE = 4294967296 := rfl
  have hr0 : w.app.m_dataRate ≠ 0 := by omega
  have hrq : (0 : ℚ) < (w.app.m_dataRate : ℚ) := by exact_mod_cast hr
  have hcast : ((w.app.m_packetSize : ℚ) * 8) = ((w.app.m_packetSize * 8 : Nat) : ℚ) := by
    push_cast; rfl
  refine ⟨{ app := { w.app with m_sendEvent := some w.uid }
            now := w.now
            events := insertEvent
              ⟨w.now + Seconds ((((w.app.m_packetSize * 8) % UINT32_RANGE : Nat) : ℚ)
                / (w.app.m_dataRate : ℚ)), w.uid, false⟩ w.events
            uid := w.uid + 1
            sent := w.sent },
    by simp only [RandomApp.ScheduleTx, Simulator.Schedule, hrun, if_true, hr0, if_false],
    rfl, ?_, ?_⟩
  · rw [hcast, div_left_inj' (ne_of_gt hrq), Nat.cast_inj, hU]
    constructor
    · intro h; omega
    · intro h; exact Nat.mod_eq_of_lt (by omega)
  · intro hs
    rw [hcast]
    apply div_lt_div_of_pos_right _ hrq
    rw [hU]
    exact_mod_cast (show w.app.m_packetSize * 8 % 4294967296 < w.app.m_packetSize * 8 by omega)

/-- C28 (witness): packet size 2^29 at 1 Mbps with the exact conversion: the event is scheduled
after an interval of 0, at the current time. -/
theorem ScheduleTx_interval_witness :
    ∃ w1, RandomApp.ScheduleTx id
        (sentState 0 536870912 1000 1000000 0 1) = some w1
      ∧ w1.events = insertEvent ⟨0, 1, false⟩ (sentState 0 536870912 1000 1000000 0 1).events
      ∧ (((536870912 * 8) % UINT32_RANGE : Nat) : ℚ) / ((1000000 : Nat) : ℚ)
          < ((536870912 : Nat) : ℚ) * 8 / ((1000000 : Nat) : ℚ) := by
  obtain ⟨w1, h1, h2, _, h4⟩ := ScheduleTx_interval id
    (sentState 0 536870912 1000 1000000 0 1) rfl (by decide)
  refine ⟨w1, h1, ?_, h4 (by decide)⟩
  rw [h2]
  have e : (((536870912 * 8) % UINT32_RANGE : Nat) : ℚ) = 0 := by
    have : (536870912 * 8) % UINT32_RANGE = 0 := by decide
    rw [this]; rfl
  simp [sentState, e]

theorem insertEvent_nil (e : SendEvent) : insertEvent e [] = [e] := rfl

theorem SendPacket_invariant (Seconds : ℚ → ℚ) (w w' : Simulation)
    (hev : w.events = []) (hrun : w.app.m_running = true)
    (h : RandomApp.SendPacket Seconds w = some w') : SendInvariant w' := by
  unfold RandomApp.SendPacket at h
  cases hs : w.app.m_socket with
  | none => rw [hs] at h; cases h
  | some sock =>
    rw [hs] at h
    simp only at h
    by_cases hlt : (w.app.m_packetsSent + 1) % UINT32_RANGE < w.app.m_nPackets
    · rw [if_pos hlt] at h
      simp only [RandomApp.ScheduleTx, hrun, if_true] at h
      by_cases hr0 : w.app.m_dataRate = 0
      · rw [if_pos hr0] at h; cases h
      · rw [if_neg hr0] at h
        simp only [Simulator.Schedule, hev, insertEvent_nil, Option.some.injEq] at h
        subst h
        refine Or.inr ⟨_, rfl, Or.inr ⟨rfl, ?_, ?_, rfl⟩⟩
        · rfl
        · exact hlt
    · rw [if_neg hlt] at h
      simp only [Option.some.injEq] at h
      subst h
      exact Or.inl hev

theorem StartApplication_invariant (Seconds : ℚ → ℚ) (s N r : Nat) (t0 : ℚ) (w : Simulation)
    (h : RandomApp.StartApplication Seconds (idleSimulation s N r t0) = some w) :
    SendInvariant w := by
  unfold RandomApp.StartApplication at h
  simp only [idleSimulation, RandomApp.Setup, RandomApp.construct] at h
  exact SendPacket_invariant Seconds _ w rfl rfl h

theorem ProcessOneEvent_invariant (Seconds : ℚ → ℚ) (w w' : Simulation)
    (hinv : SendInvariant w) (h : Simulator.ProcessOneEvent Seconds w = some w') :
    SendInvariant w' := by
  unfold Simulator.ProcessOneEvent at h
  rcases hinv with hev | ⟨e, hev, hcase⟩
  · rw [hev] at h; cases h
  · rw [hev] at h
    simp only at h
    rcases hcase with hc | ⟨hc, hrun, _, _⟩
    · rw [if_pos hc] at h
      simp only [Option.some.injEq] at h
      subst h
      exact Or.inl rfl
    · rw [if_neg (by simp [hc])] at h
      exact SendPacket_invariant Seconds { w with events := [], now := e.ts } w' rfl hrun h

theorem StopApplication_invariant (w : Simulation) (T : ℚ) (hinv : SendInvariant w) :
    SendInvariant (RandomApp.StopApplication { w with now := T }) := by
  rcases hinv with hev | ⟨e, hev, hcase⟩
  · left
    have hp : EventId.IsPending [] w.app.m_sendEvent = false := by
      cases w.app.m_sendEvent <;> simp [EventId.IsPending]
    unfold RandomApp.StopApplication
    cases hs : w.app.m_socket <;> simp [hp, hs, hev]
  · rcases hcase with hc | ⟨hc, _, _, hid⟩
    · right
      have hp : EventId.IsPending [e] w.app.m_sendEvent = false := by
        cases w.app.m_sendEvent <;> simp [EventId.IsPending, hc]
      refine ⟨e, ?_, Or.inl hc⟩
      unfold RandomApp.StopApplication
      cases hs : w.app.m_socket <;> simp [hp, hs, hev]
    · right
      have hp : EventId.IsPending [e] (some e.uid) = true := by
        simp [EventId.IsPending, hc]
      refine ⟨{ e with cancelled := true }, ?_, Or.inl rfl⟩
      unfold RandomApp.StopApplication
      cases hs : w.app.m_socket <;> simp [hp, hs, hev, hid, Simulator.Cancel]

theorem Reachable_invariant (Seconds : ℚ → ℚ) (s N r : Nat) (t0 : ℚ) (w : Simulation)
    (h : Reachable Seconds s N r t0 w) : SendInvariant w := by
  induction h with
  | start w hw => exact StartApplication_invariant Seconds s N r t0 w hw
  | fire w w' _ hstep ih => exact ProcessOneEvent_invariant Seconds w w' ih hstep
  | stop w T _ ih => exact StopApplication_invariant w T ih

/-- C29: in every state reachable from the idle generator by one `StartApplication`, any number
of fired send events and calls of `StopApplication`: at most one send event is pending in the
event list; whenever one is pending, `m_running` is true and `m_packetsSent < m_nPackets`; and
one is pending exactly when the generator's own `m_sendEvent` is pending. -/
theorem RandomApp_pending_invariant (Seconds : ℚ → ℚ) (s N r : Nat) (t0 : ℚ) (w : Simulation)
    (h : Reachable Seconds s N r t0 w) :
    (pendingEvents w).length ≤ 1
      ∧ (pendingEvents w ≠ [] →
          w.app.m_running = true ∧ w.app.m_packetsSent < w.app.m_nPackets)
      ∧ (EventId.IsPending w.events w.app.m_sendEvent = true ↔ pendingEvents w ≠ []) := by
  rcases Reachable_invariant Seconds s N r t0 w h with hev | ⟨e, hev, hcase⟩
  · have hp : pendingEvents w = [] := by simp [pendingEvents, hev]
    refine ⟨by simp [hp], fun hne => absurd hp hne, ?_⟩
    rw [hev, hp]
    cases w.app.m_sendEvent <;> simp [EventId.IsPending]
  · rcases hcase with hc | ⟨hc, hrun, hlt, hid⟩
    · have hp : pendingEvents w = [] := by simp [pendingEvents, hev, hc]
      refine ⟨by simp [hp], fun hne => absurd hp hne, ?_⟩
      rw [hev, hp]
      cases w.app.m_sendEvent <;> simp [EventId.IsPending, hc]
    · have hp : pendingEvents w = [e] := by simp [pendingEvents, hev, hc]
      refine ⟨by simp [hp], fun _ => ⟨hrun, hlt⟩, ?_⟩
      rw [hev, hp, hid]
      simp [EventId.IsPending, hc]

/-- C29 (witness): the generator of `main` right after its start, and after a stop there. -/
theorem RandomApp_pending_invariant_witness :
    ∃ w, RandomApp.StartApplication id (idleSimulation 1040 1000 1000000 0) = some w
      ∧ (pendingEvents w).length = 1
      ∧ w.app.m_running = true ∧ w.app.m_packetsSent < w.app.m_nPackets
      ∧ (pendingEvents (RandomApp.StopApplication { w with now := 1 / 100 })).length ≤ 1 := by
  have h0 := StartApplication_idle id 1040 1000 1000000 0 (by decide) (by decide) (by decide)
  have hreach : Reachable id 1040 1000 1000000 0
      (sentState (txInterval id 1040 1000000) 1040 1000 1000000 0 1) := Reachable.start _ h0
  have hp : pendingEvents (sentState (txInterval id 1040 1000000) 1040 1000 1000000 0 1)
      = [⟨0 + (1 : ℚ) * txInterval id 1040 1000000, 0, false⟩] := by
    simp [pendingEvents, sentState]
  have h1 := RandomApp_pending_invariant id 1040 1000 1000000 0 _ hreach
  have h2 := RandomApp_pending_invariant id 1040 1000 1000000 0 _
    (Reachable.stop _ (1 / 100) hreach)
  have h3 := h1.2.1 (by rw [hp]; simp)
  exact ⟨_, h0, by rw [hp]; rfl, h3.1, h3.2, h2.1⟩

/-! ## Grouping: the counters -/

theorem groupUes_none_of_wrap {α : Type} (q0 q1 q2 : Nat) (ueNodes : List α)
    (h0 : q0 < UINT16_RANGE) (hw : UINT16_RANGE ≤ q0 + q1) :
    ∀ fuel, groupUes fuel q0 q1 q2 ueNodes = none := by
  intro fuel
  unfold groupUes
  cases groupLoop INT_RANGE ueNodes q0 fuel 0 [] with
  | none => rfl
  | some vr =>
    have hwrap := groupLoop_wraps UINT16_RANGE ueNodes (q0 + q1) (by decide) hw fuel q0 [] h0
    simp only [hwrap]

theorem groupUes_terminates_iff (q0 q1 q2 : Nat) (h0 : q0 < UINT16_RANGE)
    (h2 : q2 < UINT16_RANGE) :
    (∃ fuel g, groupUes fuel q0 q1 q2 (NodeContainer.Create (q0 + q1 + q2)) = some g)
      ↔ q0 + q1 < UINT16_RANGE := by
  constructor
  · rintro ⟨fuel, g, hg⟩
    by_contra hw
    rw [groupUes_none_of_wrap q0 q1 q2 _ h0 (by omega) fuel] at hg
    cases hg
  · intro h01
    exact ⟨_, _, groupUes_of_no_wrap q0 q1 q2 _ h01 h2 (by simp [NodeContainer.Create])⟩

/-- C30 (failing input): with quotas (1, 65535, 0) the second grouping loop starts its 16-bit
counter at 1, would need 65535 passes to reach the bound 65536, and wraps from 65535 to 0
instead: on its own and inside the grouping of `main` it never ends, whatever the number of
steps allowed. -/
theorem grouping_counter_wraps :
    ∀ fuel : Nat,
      groupLoop UINT16_RANGE (NodeContainer.Create (1 + 65535 + 0)) (1 + 65535) fuel 1 [] = none
        ∧ groupUes fuel 1 65535 0 (NodeContainer.Create (1 + 65535 + 0)) = none := by
  intro fuel
  exact ⟨groupLoop_wraps UINT16_RANGE _ (1 + 65535) (by decide) (by decide) fuel 1 []
      (by decide),
    groupUes_none_of_wrap 1 65535 0 _ (by decide) (by decide) fuel⟩

end NetworkSlicing
